import Mathlib

/-!
Verification of the sandwich-finder event model and detector.

This file gives a shallow embedding, in Lean 4, of the parts of the
`sandwich-finder` Rust crate that the specification talks about:

* `Timestamp` and its derived lexicographic order
  (`src/sandwich-finder/src/events/common.rs`);
* `TradePair`, `SandwichCandidate::new` and `detect`
  (`src/sandwich-finder/src/events/sandwich.rs`);
* the sandwich name bytes used for the v5 UUID
  (`src/sandwich-finder/src/events/common.rs`, `src/sandwich-finder/src/detector.rs`);
* `decompile_tx` / `resolve_lut_lookups` (`src/sandwich-finder/src/utils.rs`);
* `TokenProgramTransferFinder::find_transfers`
  (`src/sandwich-finder/src/events/transfers/token.rs`);
* `SugarSwapFinder::swap_from_pdf_trade_event`
  (`src/sandwich-finder/src/events/swaps/sugar.rs`);
* `SwapFinderExt::find_swaps_generic`
  (`src/sandwich-finder/src/events/swaps/swap_finder_ext.rs`).

Machine integers (`u64`, `u32`, `i128`) are modelled as `Nat`/`Int` with
explicit wrap / saturation where the Rust semantics makes it observable.
Rust panics (out-of-bounds indexing, `expect`) are modelled as the
`Except.error` branch of an `Except String _` result.  Solana `Pubkey`
values and account addresses are modelled as `String` (the code compares
them only for equality; base58 rendering is injective on 32-byte keys).
-/

/-- A position inside the chronologically ordered event stream; mirror of
the Rust struct `Timestamp` in `events/common.rs` (fields in declaration
order: `slot : u64`, `inclusion_order : u32`, `ix_index : u32`,
`inner_ix_index : Option<u32>`). -/
structure Timestamp where
  slot : Nat
  inclusion_order : Nat
  ix_index : Nat
  inner_ix_index : Option Nat
deriving DecidableEq, Repr

/-- Rust `Timestamp::new`. -/
def Timestamp.new (slot inclusion_order ix_index : Nat) (inner_ix_index : Option Nat) : Timestamp :=
  { slot, inclusion_order, ix_index, inner_ix_index }

/-- The derived `Ord` on `Option<u32>`: `None` is below any `Some`. -/
def optNatLtb : Option Nat → Option Nat → Bool
  | none, some _ => true
  | some a, some b => a < b
  | _, _ => false

/-- The `#[derive(PartialOrd, Ord)]` order on `Timestamp`: lexicographic in
field declaration order, with the `Option` order on the last field. -/
def Timestamp.ltb (a b : Timestamp) : Bool :=
  if a.slot ≠ b.slot then a.slot < b.slot
  else if a.inclusion_order ≠ b.inclusion_order then a.inclusion_order < b.inclusion_order
  else if a.ix_index ≠ b.ix_index then a.ix_index < b.ix_index
  else optNatLtb a.inner_ix_index b.inner_ix_index

/-- Rank of the `Option` order: `None` sorts first. -/
def optRank : Option Nat → Nat
  | none => 0
  | some _ => 1

/-- Payload of the `Option` order. -/
def optVal : Option Nat → Nat
  | none => 0
  | some k => k

theorem optNatLtb_iff (x y : Option Nat) :
    optNatLtb x y = true ↔
      optRank x < optRank y ∨ (optRank x = optRank y ∧ optVal x < optVal y) := by
  cases x <;> cases y <;> simp [optNatLtb, optRank, optVal]

theorem optNat_eq_of_rank_val {x y : Option Nat}
    (h₁ : optRank x = optRank y) (h₂ : optVal x = optVal y) : x = y := by
  cases x <;> cases y <;> simp_all [optRank, optVal]

theorem Timestamp.ltb_iff (a b : Timestamp) :
    a.ltb b = true ↔
      a.slot < b.slot ∨ (a.slot = b.slot ∧
        (a.inclusion_order < b.inclusion_order ∨ (a.inclusion_order = b.inclusion_order ∧
          (a.ix_index < b.ix_index ∨ (a.ix_index = b.ix_index ∧
            (optRank a.inner_ix_index < optRank b.inner_ix_index ∨
              (optRank a.inner_ix_index = optRank b.inner_ix_index ∧
               optVal a.inner_ix_index < optVal b.inner_ix_index))))))) := by
  unfold Timestamp.ltb
  by_cases h1 : a.slot = b.slot <;> by_cases h2 : a.inclusion_order = b.inclusion_order <;>
    by_cases h3 : a.ix_index = b.ix_index <;>
    simp [h1, h2, h3, optNatLtb_iff] <;> omega

theorem Timestamp.eq_of_parts {a b : Timestamp}
    (h1 : a.slot = b.slot) (h2 : a.inclusion_order = b.inclusion_order)
    (h3 : a.ix_index = b.ix_index)
    (h4 : optRank a.inner_ix_index = optRank b.inner_ix_index)
    (h5 : optVal a.inner_ix_index = optVal b.inner_ix_index) : a = b := by
  cases a; cases b
  simp_all
  exact optNat_eq_of_rank_val h4 h5

/-- C6: `Timestamp` comparison is the lexicographic order on
`(slot, inclusion_order, ix_index, inner_ix_index)` in which an absent
`inner_ix_index` compares below any present one, and the order is total
(trichotomous, irreflexive and transitive). -/
theorem timestamp_order_total :
    (∀ s o i k, Timestamp.ltb (Timestamp.new s o i none) (Timestamp.new s o i (some k)) = true) ∧
    (∀ a b : Timestamp, Timestamp.ltb a b = true ∨ a = b ∨ Timestamp.ltb b a = true) ∧
    (∀ a : Timestamp, Timestamp.ltb a a = false) ∧
    (∀ a b c : Timestamp, Timestamp.ltb a b = true → Timestamp.ltb b c = true →
      Timestamp.ltb a c = true) := by
  refine ⟨?_, ?_, ?_, ?_⟩
  · intro s o i k
    simp [Timestamp.ltb, Timestamp.new, optNatLtb]
  · intro a b
    by_cases heq : a = b
    · exact Or.inr (Or.inl heq)
    · have hne : ¬(a.slot = b.slot ∧ a.inclusion_order = b.inclusion_order ∧
          a.ix_index = b.ix_index ∧ optRank a.inner_ix_index = optRank b.inner_ix_index ∧
          optVal a.inner_ix_index = optVal b.inner_ix_index) := by
        intro ⟨h1, h2, h3, h4, h5⟩
        exact heq (Timestamp.eq_of_parts h1 h2 h3 h4 h5)
      rw [Timestamp.ltb_iff, Timestamp.ltb_iff]
      have : (a.slot < b.slot ∨ (a.slot = b.slot ∧
        (a.inclusion_order < b.inclusion_order ∨ (a.inclusion_order = b.inclusion_order ∧
          (a.ix_index < b.ix_index ∨ (a.ix_index = b.ix_index ∧
            (optRank a.inner_ix_index < optRank b.inner_ix_index ∨
              (optRank a.inner_ix_index = optRank b.inner_ix_index ∧
               optVal a.inner_ix_index < optVal b.inner_ix_index)))))))) ∨
        (b.slot < a.slot ∨ (b.slot = a.slot ∧
        (b.inclusion_order < a.inclusion_order ∨ (b.inclusion_order = a.inclusion_order ∧
          (b.ix_index < a.ix_index ∨ (b.ix_index = a.ix_index ∧
            (optRank b.inner_ix_index < optRank a.inner_ix_index ∨
              (optRank b.inner_ix_index = optRank a.inner_ix_index ∧
               optVal b.inner_ix_index < optVal a.inner_ix_index)))))))) := by omega
      tauto
  · intro a
    rw [Bool.eq_false_iff]
    intro h
    rw [Timestamp.ltb_iff] at h
    omega
  · intro a b c h₁ h₂
    rw [Timestamp.ltb_iff] at h₁ h₂ ⊢
    omega

/-- Witness for C6: the transitivity clause applied at concrete timestamps. -/
theorem timestamp_order_total_witness :
    Timestamp.ltb (Timestamp.new 1 0 0 none) (Timestamp.new 1 0 0 (some 2)) = true ∧
    Timestamp.ltb (Timestamp.new 1 0 0 none) (Timestamp.new 2 0 0 none) = true := by
  refine ⟨timestamp_order_total.1 1 0 0 2, ?_⟩
  exact timestamp_order_total.2.2.2 (Timestamp.new 1 0 0 none) (Timestamp.new 1 0 0 (some 2))
    (Timestamp.new 2 0 0 none) (timestamp_order_total.1 1 0 0 2) (by decide)

/-! ## Event records

Mirrors of `SwapV2`, `TransferV2` and `TransactionV2`.  The snapshot's
`events/swap.rs` predates the rest of the crate: the constructors invoked in
`events/sandwich.rs`, `detector.rs` and `events/common.rs` also pass an
`authority` string and a persisted row `id` (`u64`, `0` for in-flight
records, spec §3), so those two fields are included here.  Addresses and
mints are strings; `u64`/`u32` quantities are `Nat`. -/

structure SwapV2 where
  outer_program : Option String
  program : String
  authority : String
  amm : String
  input_mint : String
  output_mint : String
  input_amount : Nat
  output_amount : Nat
  input_ata : String
  output_ata : String
  input_inner_ix_index : Option Nat
  output_inner_ix_index : Option Nat
  slot : Nat
  inclusion_order : Nat
  ix_index : Nat
  inner_ix_index : Option Nat
  id : Nat
deriving DecidableEq, Repr

/-- The timestamp of a swap, as used by the detector's ordering. -/
def SwapV2.timestamp (s : SwapV2) : Timestamp :=
  Timestamp.new s.slot s.inclusion_order s.ix_index s.inner_ix_index

structure TransferV2 where
  outer_program : Option String
  program : String
  authority : String
  mint : String
  amount : Nat
  input_ata : String
  output_ata : String
  timestamp : Timestamp
  id : Nat
deriving DecidableEq, Repr

/-- Rust `TransferV2::new` (builds the timestamp from its last four
position arguments). -/
def TransferV2.new (outer_program : Option String) (program authority mint : String)
    (amount : Nat) (input_ata output_ata : String) (slot inclusion_order ix_index : Nat)
    (inner_ix_index : Option Nat) (id : Nat) : TransferV2 :=
  { outer_program, program, authority, mint, amount, input_ata, output_ata,
    timestamp := Timestamp.new slot inclusion_order ix_index inner_ix_index, id }

structure TransactionV2 where
  slot : Nat
  inclusion_order : Nat
  sig : String
  fee : Nat
  cu_actual : Nat
deriving DecidableEq, Repr

/-! ## TradePair and SandwichCandidate (events/sandwich.rs) -/

structure TradePair where
  amm : String
  input_mint : String
  output_mint : String
deriving DecidableEq, Repr

def TradePair.new (amm input_mint output_mint : String) : TradePair :=
  { amm, input_mint, output_mint }

/-- Rust `TradePair::reverse`. -/
def TradePair.reverse (p : TradePair) : TradePair :=
  { amm := p.amm, input_mint := p.output_mint, output_mint := p.input_mint }

/-- The trade pair carried by a swap. -/
def SwapV2.pair (s : SwapV2) : TradePair :=
  TradePair.new s.amm s.input_mint s.output_mint

inductive SandwichError where
  | invalidFrontrun
  | invalidBackrun
  | missingWrapperProgram
  | frontrunBackrunPairMismatch
  | frontrunBackrunWrapperMismatch
  | invalidVictim
  | invalidTransfers
  | nonProfitable (profit_a profit_b : Int)
deriving DecidableEq, Repr

structure SandwichCandidate where
  frontrun : List SwapV2
  victim : List SwapV2
  backrun : List SwapV2
  transfers : List TransferV2
  txs : List TransactionV2
deriving DecidableEq, Repr

instance {α β : Type} [DecidableEq α] [DecidableEq β] : DecidableEq (Except α β)
  | .ok a, .ok b => if h : a = b then .isTrue (by rw [h]) else .isFalse (by simp [h])
  | .error a, .error b => if h : a = b then .isTrue (by rw [h]) else .isFalse (by simp [h])
  | .ok _, .error _ => .isFalse (by simp)
  | .error _, .ok _ => .isFalse (by simp)

/-- Rust `pair_from_swaps`: `None` on an empty slice or when some swap
disagrees with the first swap's pair (or, when `check_wrapper` is set, with
the first swap's `outer_program`); otherwise the shared wrapper (`None`
when `check_wrapper` is off) and pair. -/
def pair_from_swaps (swaps : List SwapV2) (check_wrapper : Bool) :
    Option (Option String × TradePair) :=
  match swaps with
  | [] => none
  | first :: _ =>
    let pair := TradePair.new first.amm first.input_mint first.output_mint
    let outer_program := if check_wrapper then first.outer_program else none
    if swaps.all (fun swap =>
        decide (swap.pair = pair) &&
        (decide (swap.outer_program = outer_program) || !check_wrapper)) then
      some (outer_program, pair)
    else
      none

/-- `i128::MIN`. -/
def i128_min : Int := -(2 ^ 127)

/-- `i128::MAX`. -/
def i128_max : Int := 2 ^ 127 - 1

/-- `i128::saturating_sub`. -/
def saturating_sub_i128 (a b : Int) : Int :=
  max i128_min (min i128_max (a - b))

/-- `Σ input_amount` over a swap slice, as `i128` (each `u64` is cast up,
so the sum is exact). -/
def sum_input (swaps : List SwapV2) : Int :=
  (swaps.map (fun s => (s.input_amount : Int))).sum

/-- `Σ output_amount` over a swap slice, as `i128`. -/
def sum_output (swaps : List SwapV2) : Int :=
  (swaps.map (fun s => (s.output_amount : Int))).sum

/-- `profit_a = backrun_received.saturating_sub(frontrun_spent)`. -/
def profit_a (frontrun backrun : List SwapV2) : Int :=
  saturating_sub_i128 (sum_output backrun) (sum_input frontrun)

/-- `profit_b = frontrun_received.saturating_sub(backrun_spent)`. -/
def profit_b (frontrun backrun : List SwapV2) : Int :=
  saturating_sub_i128 (sum_output frontrun) (sum_input backrun)

/-- The `HashSet` of frontrun `output_ata` values. -/
def frontrun_ata_set (frontrun : List SwapV2) : Finset String :=
  (frontrun.map (fun s => s.output_ata)).toFinset

/-- The `HashSet` of backrun `input_ata` values. -/
def backrun_ata_set (backrun : List SwapV2) : Finset String :=
  (backrun.map (fun s => s.input_ata)).toFinset

/-- The transfers retained by `SandwichCandidate::new`: `input_ata` in the
frontrun output set and `output_ata` in the backrun input set (both tested
against the original, unconsumed sets). -/
def matched_transfers (frontrun backrun : List SwapV2) (transfers : List TransferV2) :
    List TransferV2 :=
  transfers.filter (fun t =>
    decide (t.input_ata ∈ frontrun_ata_set frontrun) &&
    decide (t.output_ata ∈ backrun_ata_set backrun))

/-- The frontrun output-ATA set after `HashSet::remove` of every matched
transfer's `input_ata` (removal of a set of elements is set difference). -/
def frontrun_residual (frontrun backrun : List SwapV2) (transfers : List TransferV2) :
    Finset String :=
  frontrun_ata_set frontrun \
    ((matched_transfers frontrun backrun transfers).map (fun t => t.input_ata)).toFinset

/-- The backrun input-ATA set after `HashSet::remove` of every matched
transfer's `output_ata`. -/
def backrun_residual (frontrun backrun : List SwapV2) (transfers : List TransferV2) :
    Finset String :=
  backrun_ata_set backrun \
    ((matched_transfers frontrun backrun transfers).map (fun t => t.output_ata)).toFinset

/-- `tx_orders` of `SandwichCandidate::new`. -/
def tx_orders (frontrun victim backrun : List SwapV2) : List (Nat × Nat) :=
  (frontrun.map (fun f => (f.slot, f.inclusion_order))) ++
  (victim.map (fun v => (v.slot, v.inclusion_order))) ++
  (backrun.map (fun b => (b.slot, b.inclusion_order)))

/-- Rust `SandwichCandidate::new` with its check sequence in source order.
-/
def SandwichCandidate.new (frontrun victim backrun : List SwapV2)
    (transfers : List TransferV2) (txs : List TransactionV2) :
    Except SandwichError SandwichCandidate :=
  match pair_from_swaps frontrun true with
  | none => .error .invalidFrontrun
  | some (frontrun_wrapper, frontrun_pair) =>
  match pair_from_swaps backrun true with
  | none => .error .invalidBackrun
  | some (backrun_wrapper, backrun_pair) =>
  if ¬(frontrun_pair.reverse = backrun_pair) then .error .frontrunBackrunPairMismatch
  else if ¬(frontrun_wrapper = backrun_wrapper) then .error .frontrunBackrunWrapperMismatch
  else
  match pair_from_swaps victim false with
  | none => .error .invalidVictim
  | some (_, victim_pair) =>
  if ¬(victim_pair = frontrun_pair) then .error .invalidVictim
  else if ¬(victim.all (fun s =>
      s.outer_program.isNone || !decide (s.outer_program = frontrun_wrapper))) then
    .error .invalidVictim
  else if ¬(0 ≤ profit_a frontrun backrun ∧ 0 ≤ profit_b frontrun backrun) then
    .error (.nonProfitable (profit_a frontrun backrun) (profit_b frontrun backrun))
  else if ¬(frontrun_residual frontrun backrun transfers =
      backrun_residual frontrun backrun transfers) then
    .error .invalidTransfers
  else
  .ok { frontrun, victim, backrun,
        transfers := matched_transfers frontrun backrun transfers,
        txs := txs.filter (fun tx =>
          decide ((tx.slot, tx.inclusion_order) ∈ tx_orders frontrun victim backrun)) }

/-- Inversion for successful construction: the candidate keeps the given
slices and every check has passed. -/
theorem SandwichCandidate.new_ok_inv (frontrun victim backrun : List SwapV2)
    (transfers : List TransferV2) (txs : List TransactionV2) (c : SandwichCandidate)
    (h : SandwichCandidate.new frontrun victim backrun transfers txs = .ok c) :
    c.frontrun = frontrun ∧ c.backrun = backrun ∧
    0 ≤ profit_a frontrun backrun ∧ 0 ≤ profit_b frontrun backrun ∧
    frontrun_residual frontrun backrun transfers =
      backrun_residual frontrun backrun transfers := by
  unfold SandwichCandidate.new at h
  repeat' split at h
  all_goals try (exact Except.noConfusion h)
  rw [Except.ok.injEq] at h
  subst h
  simp_all

/-- C1: `SandwichCandidate::new` succeeds only when both saturating `i128`
profits are non-negative, and a `NonProfitable` error carries exactly the
two computed profits, at least one of which is negative. -/
theorem sandwich_profitability (frontrun victim backrun : List SwapV2)
    (transfers : List TransferV2) (txs : List TransactionV2) :
    (∀ c, SandwichCandidate.new frontrun victim backrun transfers txs = .ok c →
      0 ≤ profit_a frontrun backrun ∧ 0 ≤ profit_b frontrun backrun) ∧
    (∀ a b, SandwichCandidate.new frontrun victim backrun transfers txs =
        .error (.nonProfitable a b) →
      a = profit_a frontrun backrun ∧ b = profit_b frontrun backrun ∧
        (a < 0 ∨ b < 0)) := by
  constructor
  · intro c h
    have := SandwichCandidate.new_ok_inv frontrun victim backrun transfers txs c h
    exact ⟨this.2.2.1, this.2.2.2.1⟩
  · intro a b h
    unfold SandwichCandidate.new at h
    repeat' split at h
    all_goals try (exact Except.noConfusion h)
    all_goals try (exact SandwichError.noConfusion (Except.error.inj h))
    simp only [Except.error.injEq, SandwichError.nonProfitable.injEq] at h
    obtain ⟨ha, hb⟩ := h
    subst ha; subst hb
    refine ⟨rfl, rfl, ?_⟩
    omega

/-! ## Concrete sandwich examples (used by witnesses) -/

/-- Frontrun swap: pair `(X, S → T)`, wrapper `W`, amounts 100 → 200,
ATAs `A → P`. -/
def swFront : SwapV2 :=
  { outer_program := some "W", program := "PR", authority := "AU", amm := "X",
    input_mint := "S", output_mint := "T", input_amount := 100, output_amount := 200,
    input_ata := "A", output_ata := "P", input_inner_ix_index := none,
    output_inner_ix_index := none, slot := 1, inclusion_order := 5, ix_index := 0,
    inner_ix_index := none, id := 10 }

/-- Victim swap: same pair, no wrapper, amounts 50 → 90. -/
def swVict : SwapV2 :=
  { outer_program := none, program := "PR", authority := "VU", amm := "X",
    input_mint := "S", output_mint := "T", input_amount := 50, output_amount := 90,
    input_ata := "VA", output_ata := "VB", input_inner_ix_index := none,
    output_inner_ix_index := none, slot := 1, inclusion_order := 10, ix_index := 0,
    inner_ix_index := none, id := 11 }

/-- Backrun swap: reverse pair, wrapper `W`, amounts 200 → 110, ATAs `P → A`. -/
def swBack : SwapV2 :=
  { outer_program := some "W", program := "PR", authority := "AU", amm := "X",
    input_mint := "T", output_mint := "S", input_amount := 200, output_amount := 110,
    input_ata := "P", output_ata := "A", input_inner_ix_index := none,
    output_inner_ix_index := none, slot := 1, inclusion_order := 15, ix_index := 0,
    inner_ix_index := none, id := 12 }

/-- A second frontrun swap with the same `output_ata` as `swFront`
(amounts 1 → 2, row id 13). -/
def swFront2 : SwapV2 :=
  { swFront with
      input_amount := 1
      output_amount := 2
      input_ata := "A2"
      inclusion_order := 6
      id := 13 }

/-- A backrun swap receiving less than the frontrun spends
(for the `NonProfitable` branch). -/
def swBackPoor : SwapV2 :=
  { swBack with input_amount := 200, output_amount := 90 }

set_option maxRecDepth 4000 in
/-- Witness for C1: both clauses of `sandwich_profitability` applied at
concrete inputs (an accepted sandwich and a rejected one). -/
theorem sandwich_profitability_witness :
    (0 ≤ profit_a [swFront] [swBack] ∧ 0 ≤ profit_b [swFront] [swBack]) ∧
    ((-10 : Int) = profit_a [swFront] [swBackPoor] ∧
      (0 : Int) = profit_b [swFront] [swBackPoor] ∧
      ((-10 : Int) < 0 ∨ (0 : Int) < 0)) := by
  constructor
  · exact (sandwich_profitability [swFront] [swVict] [swBack] [] []).1
      { frontrun := [swFront], victim := [swVict], backrun := [swBack],
        transfers := [], txs := [] } (by decide)
  · exact (sandwich_profitability [swFront] [swVict] [swBackPoor] [] []).2
      (-10) 0 (by decide)

/-! ## C2: the fund-connectivity check -/

/-- The fund-connectivity property exactly as the claim words it, using
multisets: a transfer matches when its `input_ata` is in the (current)
frontrun output collection and its `output_ata` is in the (current)
backrun input collection; each match consumes one element from each;
after all consumable matches the residuals must be equal. -/
def spec_consume (transfers : List TransferV2) (fr br : Multiset String) :
    Multiset String × Multiset String :=
  match transfers with
  | [] => (fr, br)
  | t :: rest =>
    if t.input_ata ∈ fr ∧ t.output_ata ∈ br then
      spec_consume rest (fr.erase t.input_ata) (br.erase t.output_ata)
    else
      spec_consume rest fr br

/-- The claim's multiset reading of invariant §4.7 #7. -/
def spec_multiset_closure (frontrun backrun : List SwapV2)
    (transfers : List TransferV2) : Prop :=
  (spec_consume transfers (frontrun.map (fun s => s.output_ata) : Multiset String)
      (backrun.map (fun s => s.input_ata) : Multiset String)).1 =
  (spec_consume transfers (frontrun.map (fun s => s.output_ata) : Multiset String)
      (backrun.map (fun s => s.input_ata) : Multiset String)).2

instance (frontrun backrun : List SwapV2) (transfers : List TransferV2) :
    Decidable (spec_multiset_closure frontrun backrun transfers) := by
  unfold spec_multiset_closure
  infer_instance

set_option maxRecDepth 4000 in
/-- Counterexample to C2 as stated: `SandwichCandidate::new` accepts two
frontrun swaps sharing one `output_ata` against a single backrun swap
(hash-set semantics collapses the duplicate), although the multiset of
frontrun `output_ata` values differs from the multiset of backrun
`input_ata` values and no transfer is present to consume anything. -/
theorem sandwich_transfers_multiset_counterexample :
    (SandwichCandidate.new [swFront, swFront2] [swVict] [swBack] [] []).isOk = true ∧
    decide (spec_multiset_closure [swFront, swFront2] [swBack] []) = false := by
  constructor
  · decide
  · decide

/-- C2 (amended): the residual comparison is on hash *sets* (duplicates
collapsed), with transfers matched against the original sets; acceptance
implies residual-set equality, and the `InvalidTransfers` error appears
exactly when the residual sets differ. -/
theorem sandwich_transfers_set_closure (frontrun victim backrun : List SwapV2)
    (transfers : List TransferV2) (txs : List TransactionV2) :
    (∀ c, SandwichCandidate.new frontrun victim backrun transfers txs = .ok c →
      frontrun_residual frontrun backrun transfers =
        backrun_residual frontrun backrun transfers) ∧
    (SandwichCandidate.new frontrun victim backrun transfers txs =
        .error .invalidTransfers →
      ¬(frontrun_residual frontrun backrun transfers =
        backrun_residual frontrun backrun transfers)) := by
  constructor
  · intro c h
    exact (SandwichCandidate.new_ok_inv frontrun victim backrun transfers txs c h).2.2.2.2
  · intro h
    unfold SandwichCandidate.new at h
    repeat' split at h
    all_goals try (exact Except.noConfusion h)
    all_goals try (exact SandwichError.noConfusion (Except.error.inj h))
    all_goals assumption

/-- A backrun swap whose `input_ata` is unconnected to the frontrun. -/
def swBackQ : SwapV2 := { swBack with input_ata := "Q" }

set_option maxRecDepth 4000 in
/-- Witness for C2: the acceptance clause applied at a concrete accepted
sandwich and the error clause at a concrete rejected one. -/
theorem sandwich_transfers_set_closure_witness :
    (frontrun_residual [swFront] [swBack] [] = backrun_residual [swFront] [swBack] []) ∧
    ¬(frontrun_residual [swFront] [swBackQ] [] =
      backrun_residual [swFront] [swBackQ] []) := by
  constructor
  · exact (sandwich_transfers_set_closure [swFront] [swVict] [swBack] [] []).1
      { frontrun := [swFront], victim := [swVict], backrun := [swBack],
        transfers := [], txs := [] } (by decide)
  · exact (sandwich_transfers_set_closure [swFront] [swVict]
      [swBackQ] [] []).2 (by decide)

/-! ## The detector (`detect` in events/sandwich.rs)

`HashMap` iteration order is unspecified in Rust; the model fixes
first-appearance order for the outer-program sub-buckets.  The invariants
proved below hold for every emitted candidate and do not depend on that
order.  Outer-program keys are compared as strings
(`Pubkey::from_str_const` is injective on valid base58 keys). -/

def JUP_V6_PROGRAM_ID : String := "JUP6LkbZbjS1jKKwapdHNy74zcZ3tLUZoi5QNyVTaV4"

def JUP_V4_PROGRAM_ID : String := "JUP4Fb2cqiRUcaTHdrPC8h2gNsA2ETXiPDD33WcGuJB"

def DFLOW_PROGRAM_ID : String := "DF1ow4tspfHX9JwWJsAb9epbkA8hmpSEAtxXy1V27QBH"

/-- Rust `is_known_aggregator` (events/addresses.rs): Jupiter v6,
Jupiter v4 or DFlow. -/
def is_known_aggregator (program_id : String) : Bool :=
  decide (program_id = JUP_V6_PROGRAM_ID) || decide (program_id = JUP_V4_PROGRAM_ID) ||
  decide (program_id = DFLOW_PROGRAM_ID)

/-- The detector's sub-bucket skip test:
`k.is_some() && is_known_aggregator(k.unwrap())`. -/
def aggregator_key : Option String → Bool
  | some p => is_known_aggregator p
  | none => false

/-- What the `Err(NonProfitable)` arm of the enumeration does with the two
profits at position `(m, n)`; the if-chain in source order (`detect`,
events/sandwich.rs lines 230-243). -/
inductive PruneAction where
  | keepGoing
  | breakN
  | breakM
  | breakJ
deriving DecidableEq, Repr

def prune_action (pa pb : Int) (m n after_len : Nat) : PruneAction :=
  if pb < 0 then .breakN
  else if n = after_len ∧ pa < 0 then .breakM
  else if n = after_len ∧ m = 0 ∧ pa < 0 then .breakJ
  else .keepGoing

/-- The victim collection for a frontrun/backrun choice: strictly between
the last frontrun and the first backrun, on the anchor's AMM and pair. -/
def victim_between (swaps : List SwapV2) (anchor frontrun_last backrun_first : SwapV2) :
    List SwapV2 :=
  swaps.filter (fun s =>
    Timestamp.ltb frontrun_last.timestamp s.timestamp &&
    Timestamp.ltb s.timestamp backrun_first.timestamp &&
    decide (s.amm = anchor.amm) && decide (s.input_mint = anchor.input_mint) &&
    decide (s.output_mint = anchor.output_mint))

/-- Result of one innermost enumeration step. -/
inductive StepResult where
  | push (c : SandwichCandidate) (vts : List Timestamp)
  | prune (act : PruneAction)
  | skip
deriving DecidableEq, Repr

/-- One innermost `(i, j, m, n)` step: build the contiguous slices, try
`SandwichCandidate::new`, and classify the outcome. -/
def n_step (swaps : List SwapV2) (transfers : List TransferV2) (txs : List TransactionV2)
    (anchor : SwapV2) (beforeK afterK : List SwapV2) (i j m n : Nat) : StepResult :=
  match SandwichCandidate.new ((beforeK.drop i).take (j - i))
      (victim_between swaps anchor (beforeK.getD (j - 1) anchor) (afterK.getD m anchor))
      ((afterK.drop m).take (n - m)) transfers txs with
  | .ok sandwich =>
    .push sandwich ((victim_between swaps anchor (beforeK.getD (j - 1) anchor)
      (afterK.getD m anchor)).map (fun s => s.timestamp))
  | .error (.nonProfitable pa pb) => .prune (prune_action pa pb m n afterK.length)
  | .error _ => .skip

/-- How the `n` loop ended: ran to completion (or `break 'n`), `break 'm`,
or `break 'j`. -/
inductive NExit where
  | fin
  | toM
  | toJ
deriving DecidableEq, Repr

/-- The detector state threaded through the nested loops: the candidate
list for the current anchor and the global `matched_timestamps`. -/
abbrev DetectState := List SandwichCandidate × List Timestamp

/-- The `n` loop over `n ∈ m+1 ..= after.len()`. -/
def n_loop (swaps : List SwapV2) (transfers : List TransferV2) (txs : List TransactionV2)
    (anchor : SwapV2) (beforeK afterK : List SwapV2) (i j m : Nat) :
    List Nat → DetectState → DetectState × NExit
  | [], st => (st, .fin)
  | n :: rest, st =>
    match n_step swaps transfers txs anchor beforeK afterK i j m n with
    | .push c vts =>
      n_loop swaps transfers txs anchor beforeK afterK i j m rest (st.1 ++ [c], st.2 ++ vts)
    | .prune .breakN => (st, .fin)
    | .prune .breakM => (st, .toM)
    | .prune .breakJ => (st, .toJ)
    | .prune .keepGoing => n_loop swaps transfers txs anchor beforeK afterK i j m rest st
    | .skip => n_loop swaps transfers txs anchor beforeK afterK i j m rest st

/-- The `m` loop over `m ∈ 0 .. after.len()`; the returned flag is a
propagated `break 'j`. -/
def m_loop (swaps : List SwapV2) (transfers : List TransferV2) (txs : List TransactionV2)
    (anchor : SwapV2) (beforeK afterK : List SwapV2) (i j : Nat) :
    List Nat → DetectState → DetectState × Bool
  | [], st => (st, false)
  | m :: rest, st =>
    match n_loop swaps transfers txs anchor beforeK afterK i j m
        (List.range' (m + 1) (afterK.length - m)) st with
    | (st', .fin) => m_loop swaps transfers txs anchor beforeK afterK i j rest st'
    | (st', .toM) => (st', false)
    | (st', .toJ) => (st', true)

/-- The `j` loop over `j ∈ i+1 ..= before.len()`. -/
def j_loop (swaps : List SwapV2) (transfers : List TransferV2) (txs : List TransactionV2)
    (anchor : SwapV2) (beforeK afterK : List SwapV2) (i : Nat) :
    List Nat → DetectState → DetectState
  | [], st => st
  | j :: rest, st =>
    match m_loop swaps transfers txs anchor beforeK afterK i j
        (List.range afterK.length) st with
    | (st', false) => j_loop swaps transfers txs anchor beforeK afterK i rest st'
    | (st', true) => st'

/-- The `i` loop over `i ∈ 0 .. before.len()`. -/
def i_loop (swaps : List SwapV2) (transfers : List TransferV2) (txs : List TransactionV2)
    (anchor : SwapV2) (beforeK afterK : List SwapV2) :
    List Nat → DetectState → DetectState
  | [], st => st
  | i :: rest, st =>
    i_loop swaps transfers txs anchor beforeK afterK rest
      (j_loop swaps transfers txs anchor beforeK afterK i
        (List.range' (i + 1) (beforeK.length - i)) st)

/-- The `HashMap<Option<Arc<str>>, Vec<SwapV2>>` grouping by
`outer_program`, with first-appearance key order. -/
def group_by_outer (l : List SwapV2) : List (Option String × List SwapV2) :=
  ((l.map (fun s => s.outer_program)).dedup).map
    (fun k => (k, l.filter (fun s => decide (s.outer_program = k))))

/-- The loop over outer-program sub-buckets: known-aggregator keys are
skipped, then keys present in both sub-buckets are enumerated. -/
def group_loop (swaps : List SwapV2) (transfers : List TransferV2)
    (txs : List TransactionV2) (anchor : SwapV2) (after_swaps : List SwapV2) :
    List (Option String × List SwapV2) → DetectState → DetectState
  | [], st => st
  | (k, beforeK) :: rest, st =>
    if aggregator_key k then
      group_loop swaps transfers txs anchor after_swaps rest st
    else
      match after_swaps.filter (fun s => decide (s.outer_program = k)) with
      | [] => group_loop swaps transfers txs anchor after_swaps rest st
      | afterK@(_ :: _) =>
        group_loop swaps transfers txs anchor after_swaps rest
          (i_loop swaps transfers txs anchor beforeK afterK (List.range beforeK.length) st)

/-- `sort_by_cached_key` key comparison:
`(victim.len(), frontrun.len() + backrun.len())`, lexicographically. -/
def sandwich_rank_le (a b : SandwichCandidate) : Bool :=
  decide (a.victim.length < b.victim.length) ||
  (decide (a.victim.length = b.victim.length) &&
    decide (a.frontrun.length + a.backrun.length ≤ b.frontrun.length + b.backrun.length))

/-- `candidates.last()` after a stable ascending sort: the last candidate
of maximal rank in iteration order. -/
def pick_last_max : SandwichCandidate → List SandwichCandidate → SandwichCandidate
  | best, [] => best
  | best, c :: rest => pick_last_max (if sandwich_rank_le best c then c else best) rest

/-- `if !candidates.is_empty() { sandwiches.push(sorted.last()) }` as a
list: empty for no candidates, the best candidate as a singleton
otherwise. -/
def pick_best : List SandwichCandidate → List SandwichCandidate
  | [] => []
  | c :: cs => [pick_last_max c cs]

/-- The per-anchor loop of `detect`: skip already-matched anchors, build
the `before`/`after` vectors, enumerate sub-buckets, and emit the best
candidate when any was found. -/
def anchor_loop (swaps_all : List SwapV2) (transfers : List TransferV2)
    (txs : List TransactionV2) :
    List SwapV2 → List Timestamp × List SandwichCandidate →
      List Timestamp × List SandwichCandidate
  | [], st => st
  | anchor :: rest, (matched, sandwiches) =>
    if anchor.timestamp ∈ matched then
      anchor_loop swaps_all transfers txs rest (matched, sandwiches)
    else
      let before_swaps := swaps_all.filter (fun s =>
        decide (s.pair = anchor.pair) && Timestamp.ltb s.timestamp anchor.timestamp)
      let after_swaps := swaps_all.filter (fun s =>
        decide (s.pair = anchor.pair.reverse) && Timestamp.ltb anchor.timestamp s.timestamp)
      if before_swaps.isEmpty || after_swaps.isEmpty then
        anchor_loop swaps_all transfers txs rest (matched, sandwiches)
      else
        let res := group_loop swaps_all transfers txs anchor after_swaps
          (group_by_outer before_swaps) ([], matched)
        anchor_loop swaps_all transfers txs rest (res.2, sandwiches ++ pick_best res.1)

/-- Rust `detect`: the emitted sandwich list. -/
def detect (swaps : List SwapV2) (transfers : List TransferV2)
    (txs : List TransactionV2) : List SandwichCandidate :=
  (anchor_loop swaps transfers txs swaps ([], [])).2

/-! ## C3/C4: invariants of the enumeration -/

/-- The wrapper-identity invariant of an emitted candidate: one shared
`outer_program` across all frontrun and backrun swaps, never a known
aggregator. -/
def shares_non_aggregator_wrapper (c : SandwichCandidate) : Prop :=
  ∃ w : Option String,
    (∀ s ∈ c.frontrun, s.outer_program = w) ∧
    (∀ s ∈ c.backrun, s.outer_program = w) ∧
    aggregator_key w = false

theorem n_step_push_wrapper (swaps : List SwapV2) (transfers : List TransferV2)
    (txs : List TransactionV2) (anchor : SwapV2) (beforeK afterK : List SwapV2)
    (i j m n : Nat) (c : SandwichCandidate) (vts : List Timestamp) (k : Option String)
    (hb : ∀ s ∈ beforeK, s.outer_program = k) (ha : ∀ s ∈ afterK, s.outer_program = k)
    (hk : aggregator_key k = false)
    (h : n_step swaps transfers txs anchor beforeK afterK i j m n = .push c vts) :
    shares_non_aggregator_wrapper c := by
  unfold n_step at h
  cases hnew : SandwichCandidate.new ((beforeK.drop i).take (j - i))
      (victim_between swaps anchor (beforeK.getD (j - 1) anchor) (afterK.getD m anchor))
      ((afterK.drop m).take (n - m)) transfers txs with
  | ok sandwich =>
    rw [hnew] at h
    simp only [StepResult.push.injEq] at h
    obtain ⟨hc, -⟩ := h
    subst hc
    have hinv := SandwichCandidate.new_ok_inv _ _ _ _ _ _ hnew
    refine ⟨k, ?_, ?_, hk⟩
    · intro s hs
      rw [hinv.1] at hs
      exact hb s (List.drop_subset _ _ (List.take_subset _ _ hs))
    · intro s hs
      rw [hinv.2.1] at hs
      exact ha s (List.drop_subset _ _ (List.take_subset _ _ hs))
  | error e =>
    rw [hnew] at h
    cases e <;> simp at h

theorem n_loop_inv (swaps : List SwapV2) (transfers : List TransferV2)
    (txs : List TransactionV2) (anchor : SwapV2) (beforeK afterK : List SwapV2)
    (i j m : Nat) (k : Option String)
    (hb : ∀ s ∈ beforeK, s.outer_program = k) (ha : ∀ s ∈ afterK, s.outer_program = k)
    (hk : aggregator_key k = false) :
    ∀ (ns : List Nat) (st : DetectState),
      (∀ c ∈ st.1, shares_non_aggregator_wrapper c) →
      ∀ c ∈ ((n_loop swaps transfers txs anchor beforeK afterK i j m ns st).1).1,
        shares_non_aggregator_wrapper c := by
  intro ns
  induction ns with
  | nil =>
    intro st hst c hc
    simp only [n_loop] at hc
    exact hst c hc
  | cons n rest ih =>
    intro st hst c hc
    rw [n_loop] at hc
    cases hstep : n_step swaps transfers txs anchor beforeK afterK i j m n with
    | push cP vtsP =>
      rw [hstep] at hc
      simp only [] at hc
      refine ih _ ?_ c hc
      intro x hx
      rcases List.mem_append.1 hx with hx | hx
      · exact hst x hx
      · rw [List.mem_singleton] at hx
        subst hx
        exact n_step_push_wrapper swaps transfers txs anchor beforeK afterK i j m n
          _ _ k hb ha hk hstep
    | prune act =>
      rw [hstep] at hc
      cases act <;> simp only [] at hc
      · exact ih _ hst c hc
      · exact hst c hc
      · exact hst c hc
      · exact hst c hc
    | skip =>
      rw [hstep] at hc
      simp only [] at hc
      exact ih _ hst c hc

theorem m_loop_inv (swaps : List SwapV2) (transfers : List TransferV2)
    (txs : List TransactionV2) (anchor : SwapV2) (beforeK afterK : List SwapV2)
    (i j : Nat) (k : Option String)
    (hb : ∀ s ∈ beforeK, s.outer_program = k) (ha : ∀ s ∈ afterK, s.outer_program = k)
    (hk : aggregator_key k = false) :
    ∀ (ms : List Nat) (st : DetectState),
      (∀ c ∈ st.1, shares_non_aggregator_wrapper c) →
      ∀ c ∈ ((m_loop swaps transfers txs anchor beforeK afterK i j ms st).1).1,
        shares_non_aggregator_wrapper c := by
  intro ms
  induction ms with
  | nil =>
    intro st hst c hc
    simp only [m_loop] at hc
    exact hst c hc
  | cons m rest ih =>
    intro st hst c hc
    rw [m_loop] at hc
    have hnext := n_loop_inv swaps transfers txs anchor beforeK afterK i j m k hb ha hk
      (List.range' (m + 1) (afterK.length - m)) st hst
    cases hres : n_loop swaps transfers txs anchor beforeK afterK i j m
        (List.range' (m + 1) (afterK.length - m)) st with
    | mk st' ex =>
      rw [hres] at hc
      rw [hres] at hnext
      cases ex <;> simp only [] at hc
      · exact ih st' hnext c hc
      · exact hnext c hc
      · exact hnext c hc

theorem j_loop_inv (swaps : List SwapV2) (transfers : List TransferV2)
    (txs : List TransactionV2) (anchor : SwapV2) (beforeK afterK : List SwapV2)
    (i : Nat) (k : Option String)
    (hb : ∀ s ∈ beforeK, s.outer_program = k) (ha : ∀ s ∈ afterK, s.outer_program = k)
    (hk : aggregator_key k = false) :
    ∀ (js : List Nat) (st : DetectState),
      (∀ c ∈ st.1, shares_non_aggregator_wrapper c) →
      ∀ c ∈ (j_loop swaps transfers txs anchor beforeK afterK i js st).1,
        shares_non_aggregator_wrapper c := by
  intro js
  induction js with
  | nil =>
    intro st hst c hc
    simp only [j_loop] at hc
    exact hst c hc
  | cons j rest ih =>
    intro st hst c hc
    rw [j_loop] at hc
    have hnext := m_loop_inv swaps transfers txs anchor beforeK afterK i j k hb ha hk
      (List.range afterK.length) st hst
    cases hres : m_loop swaps transfers txs anchor beforeK afterK i j
        (List.range afterK.length) st with
    | mk st' flag =>
      rw [hres] at hc
      rw [hres] at hnext
      cases flag <;> simp only [] at hc
      · exact ih st' hnext c hc
      · exact hnext c hc

theorem i_loop_inv (swaps : List SwapV2) (transfers : List TransferV2)
    (txs : List TransactionV2) (anchor : SwapV2) (beforeK afterK : List SwapV2)
    (k : Option String)
    (hb : ∀ s ∈ beforeK, s.outer_program = k) (ha : ∀ s ∈ afterK, s.outer_program = k)
    (hk : aggregator_key k = false) :
    ∀ (is' : List Nat) (st : DetectState),
      (∀ c ∈ st.1, shares_non_aggregator_wrapper c) →
      ∀ c ∈ (i_loop swaps transfers txs anchor beforeK afterK is' st).1,
        shares_non_aggregator_wrapper c := by
  intro is'
  induction is' with
  | nil =>
    intro st hst c hc
    simp only [i_loop] at hc
    exact hst c hc
  | cons i rest ih =>
    intro st hst c hc
    rw [i_loop] at hc
    exact ih _ (j_loop_inv swaps transfers txs anchor beforeK afterK i k hb ha hk
      (List.range' (i + 1) (beforeK.length - i)) st hst) c hc

theorem group_by_outer_mem (l : List SwapV2) (k : Option String) (bk : List SwapV2)
    (h : (k, bk) ∈ group_by_outer l) :
    bk = l.filter (fun s => decide (s.outer_program = k)) := by
  unfold group_by_outer at h
  rw [List.mem_map] at h
  obtain ⟨k', _, heq⟩ := h
  rw [Prod.mk.injEq] at heq
  obtain ⟨hk, hbk⟩ := heq
  subst hk
  exact hbk.symm

theorem group_loop_inv (swaps : List SwapV2) (transfers : List TransferV2)
    (txs : List TransactionV2) (anchor : SwapV2) (after_swaps : List SwapV2) :
    ∀ (groups : List (Option String × List SwapV2)) (st : DetectState),
      (∀ p ∈ groups, ∀ s ∈ p.2, s.outer_program = p.1) →
      (∀ c ∈ st.1, shares_non_aggregator_wrapper c) →
      ∀ c ∈ (group_loop swaps transfers txs anchor after_swaps groups st).1,
        shares_non_aggregator_wrapper c := by
  intro groups
  induction groups with
  | nil =>
    intro st _ hst c hc
    simp only [group_loop] at hc
    exact hst c hc
  | cons p rest ih =>
    intro st hgroups hst c hc
    obtain ⟨k, beforeK⟩ := p
    rw [group_loop] at hc
    by_cases hagg : aggregator_key k = true
    · rw [if_pos hagg] at hc
      exact ih st (fun q hq => hgroups q (List.mem_cons_of_mem _ hq)) hst c hc
    · rw [if_neg hagg] at hc
      have hb : ∀ s ∈ beforeK, s.outer_program = k :=
        hgroups (k, beforeK) (List.mem_cons_self _ _)
      have hk : aggregator_key k = false := by
        cases h : aggregator_key k
        · rfl
        · exact absurd h hagg
      cases hfil : after_swaps.filter (fun s => decide (s.outer_program = k)) with
      | nil =>
        rw [hfil] at hc
        exact ih st (fun q hq => hgroups q (List.mem_cons_of_mem _ hq)) hst c hc
      | cons a as =>
        rw [hfil] at hc
        have ha : ∀ s ∈ a :: as, s.outer_program = k := by
          intro s hs
          rw [← hfil] at hs
          have := List.mem_filter.1 hs
          exact of_decide_eq_true this.2
        refine ih _ (fun q hq => hgroups q (List.mem_cons_of_mem _ hq)) ?_ c hc
        exact i_loop_inv swaps transfers txs anchor beforeK (a :: as) k hb ha hk
          (List.range beforeK.length) st hst

theorem pick_last_max_mem (cs : List SandwichCandidate) (best : SandwichCandidate) :
    pick_last_max best cs = best ∨ pick_last_max best cs ∈ cs := by
  induction cs generalizing best with
  | nil => left; rfl
  | cons c rest ih =>
    rw [pick_last_max]
    rcases ih (if sandwich_rank_le best c then c else best) with h | h
    · rw [h]
      by_cases hr : sandwich_rank_le best c = true
      · right; rw [if_pos hr]; exact List.mem_cons_self _ _
      · left; rw [if_neg hr]
    · right; exact List.mem_cons_of_mem _ h

theorem pick_best_subset (l : List SandwichCandidate) :
    ∀ x ∈ pick_best l, x ∈ l := by
  cases l with
  | nil => intro x hx; cases hx
  | cons c cs =>
    intro x hx
    rw [pick_best, List.mem_singleton] at hx
    subst hx
    rcases pick_last_max_mem cs c with h | h
    · rw [h]; exact List.mem_cons_self _ _
    · exact List.mem_cons_of_mem _ h

theorem anchor_loop_inv (swaps_all : List SwapV2) (transfers : List TransferV2)
    (txs : List TransactionV2) :
    ∀ (anchors : List SwapV2) (st : List Timestamp × List SandwichCandidate),
      (∀ c ∈ st.2, shares_non_aggregator_wrapper c) →
      ∀ c ∈ (anchor_loop swaps_all transfers txs anchors st).2,
        shares_non_aggregator_wrapper c := by
  intro anchors
  induction anchors with
  | nil =>
    intro st hst c hc
    simp only [anchor_loop] at hc
    exact hst c hc
  | cons anchor rest ih =>
    intro st hst c hc
    obtain ⟨matched, sandwiches⟩ := st
    rw [anchor_loop] at hc
    by_cases hmem : anchor.timestamp ∈ matched
    · rw [if_pos hmem] at hc
      exact ih _ hst c hc
    · rw [if_neg hmem] at hc
      simp only [] at hc
      set before_swaps := swaps_all.filter (fun s =>
        decide (s.pair = anchor.pair) && Timestamp.ltb s.timestamp anchor.timestamp) with hbdef
      set after_swaps := swaps_all.filter (fun s =>
        decide (s.pair = anchor.pair.reverse) && Timestamp.ltb anchor.timestamp s.timestamp)
        with hadef
      by_cases hempty : (before_swaps.isEmpty || after_swaps.isEmpty) = true
      · rw [if_pos hempty] at hc
        exact ih _ hst c hc
      · rw [if_neg hempty] at hc
        have hgroups : ∀ p ∈ group_by_outer before_swaps, ∀ s ∈ p.2,
            s.outer_program = p.1 := by
          intro p hp s hs
          obtain ⟨k, bk⟩ := p
          rw [group_by_outer_mem before_swaps k bk hp] at hs
          exact of_decide_eq_true (List.mem_filter.1 hs).2
        have hall := group_loop_inv swaps_all transfers txs anchor after_swaps
          (group_by_outer before_swaps) ([], matched) hgroups (by intro c hc; cases hc)
        refine ih _ ?_ c hc
        intro x hx
        rcases List.mem_append.1 hx with hx | hx
        · exact hst x hx
        · exact hall x (pick_best_subset _ x hx)

/-- C3: every candidate emitted by `detect` has one shared `outer_program`
across all its frontrun and backrun swaps, and that shared wrapper is
never a known aggregator (Jupiter v4, Jupiter v6 or DFlow); in particular
a frontrun/backrun pair whose shared wrapper is a known aggregator is
never emitted. -/
theorem detect_wrapper_invariant (swaps : List SwapV2) (transfers : List TransferV2)
    (txs : List TransactionV2) :
    ∀ c ∈ detect swaps transfers txs, ∃ w : Option String,
      (∀ s ∈ c.frontrun, s.outer_program = w) ∧
      (∀ s ∈ c.backrun, s.outer_program = w) ∧
      aggregator_key w = false := by
  intro c hc
  have := anchor_loop_inv swaps transfers txs swaps ([], [])
    (by intro x hx; cases hx) c hc
  exact this

/-- The candidate that `detect` emits for the three-swap example. -/
def candW : SandwichCandidate :=
  { frontrun := [swFront], victim := [swVict], backrun := [swBack],
    transfers := [], txs := [] }

set_option maxRecDepth 8000 in
/-- Witness for C3: `detect` on a concrete window emits `candW`, and the
invariant theorem applies to it. -/
theorem detect_wrapper_invariant_witness :
    candW ∈ detect [swFront, swVict, swBack] [] [] ∧
    ∃ w : Option String,
      (∀ s ∈ candW.frontrun, s.outer_program = w) ∧
      (∀ s ∈ candW.backrun, s.outer_program = w) ∧
      aggregator_key w = false := by
  constructor
  · decide
  · exact detect_wrapper_invariant [swFront, swVict, swBack] [] [] candW (by decide)

/-- C4 (the pruning break): when construction fails with
`NonProfitable(A, B)` at `B ≥ 0`, `A < 0`, `n = |after|` and `m = 0`, the
if-chain takes `break 'm` (pruning condition #2 is tested first), and the
`break 'j` arm of pruning condition #3 is unreachable: the action is never
`breakJ`, for any profits and loop position. -/
theorem prune_break_j_unreachable :
    prune_action (-1) 0 0 1 1 = PruneAction.breakM ∧
    (∀ (pa pb : Int) (m n after_len : Nat),
      prune_action pa pb m n after_len = PruneAction.breakN ∨
      prune_action pa pb m n after_len = PruneAction.breakM ∨
      prune_action pa pb m n after_len = PruneAction.keepGoing) := by
  constructor
  · decide
  · intro pa pb m n after_len
    unfold prune_action
    by_cases h1 : pb < 0
    · rw [if_pos h1]; exact Or.inl rfl
    · rw [if_neg h1]
      by_cases h2 : n = after_len ∧ pa < 0
      · rw [if_pos h2]; exact Or.inr (Or.inl rfl)
      · rw [if_neg h2]
        have h3 : ¬(n = after_len ∧ m = 0 ∧ pa < 0) := by tauto
        rw [if_neg h3]
        exact Or.inr (Or.inr rfl)

/-! ## C5: the sandwich name bytes (`insert_sandwiches`)

`u64::to_le_bytes` of each event's row id, concatenated per component in
the source order frontrun, backrun, victim, transfers; the v5 UUID is a
pure function (SHA-1) of those name bytes, so equality of name bytes is
equality of UUIDs and the byte string is what the theorems are about. -/

/-- `u64::to_le_bytes`. -/
def le64 (n : Nat) : List Nat :=
  [n % 256, n / 256 % 256, n / 65536 % 256, n / 16777216 % 256,
   n / 4294967296 % 256, n / 1099511627776 % 256, n / 281474976710656 % 256,
   n / 72057594037927936 % 256]

/-- The little-endian id bytes of a list of row ids. -/
def bytes_of_ids (ids : List Nat) : List Nat :=
  (ids.map le64).flatten

/-- The concatenation of per-component id bytes, in component order. -/
def components_bytes (l : List (List Nat)) : List Nat :=
  (l.map bytes_of_ids).flatten

/-- The `name` byte vector of `insert_sandwiches` (detector.rs and
events/common.rs): frontrun ids, then backrun ids, then victim ids, then
transfer ids, each as `u64::to_le_bytes`. -/
def sandwich_name_bytes (c : SandwichCandidate) : List Nat :=
  bytes_of_ids (c.frontrun.map (fun s => s.id)) ++
  bytes_of_ids (c.backrun.map (fun s => s.id)) ++
  bytes_of_ids (c.victim.map (fun s => s.id)) ++
  bytes_of_ids (c.transfers.map (fun t => t.id))

theorem components_bytes_eq_flatten (l : List (List Nat)) :
    components_bytes l = bytes_of_ids l.flatten := by
  induction l with
  | nil => rfl
  | cons b rest ih =>
    simp only [components_bytes, bytes_of_ids, List.map_cons, List.flatten_cons,
      List.flatten_append, List.map_append] at *
    rw [ih]

theorem le64_inj {a b : Nat} (ha : a < 2 ^ 64) (hb : b < 2 ^ 64)
    (h : le64 a = le64 b) : a = b := by
  simp only [le64, List.cons.injEq, and_true] at h
  omega

theorem bytes_of_ids_inj (l₁ l₂ : List Nat) (h₁ : ∀ x ∈ l₁, x < 2 ^ 64)
    (h₂ : ∀ x ∈ l₂, x < 2 ^ 64) (h : bytes_of_ids l₁ = bytes_of_ids l₂) :
    l₁ = l₂ := by
  induction l₁ generalizing l₂ with
  | nil =>
    cases l₂ with
    | nil => rfl
    | cons b t => simp [bytes_of_ids, le64] at h
  | cons a t ih =>
    cases l₂ with
    | nil => simp [bytes_of_ids, le64] at h
    | cons b t' =>
      simp only [bytes_of_ids, List.map_cons, List.flatten_cons] at h
      have hlen : (le64 a).length = (le64 b).length := by simp [le64]
      obtain ⟨hhead, htail⟩ := List.append_inj h hlen
      have hab : a = b := le64_inj (h₁ a (List.mem_cons_self _ _))
        (h₂ b (List.mem_cons_self _ _)) hhead
      subst hab
      rw [ih t' (fun x hx => h₁ x (List.mem_cons_of_mem _ hx))
        (fun x hx => h₂ x (List.mem_cons_of_mem _ hx)) htail]

theorem flatten_perm_eq (l₁ : List (List Nat)) :
    ∀ (l₂ : List (List Nat)), l₂.Perm l₁ → (∀ b ∈ l₁, b ≠ []) →
      l₁.flatten.Nodup → l₂.flatten = l₁.flatten → l₂ = l₁ := by
  induction l₁ with
  | nil =>
    intro l₂ hperm _ _ _
    exact List.perm_nil.1 hperm
  | cons B rest ih =>
    intro l₂ hperm hne hnd hj
    cases l₂ with
    | nil =>
      exact absurd (List.perm_nil.1 hperm.symm) (by simp)
    | cons Bx rest₂ =>
      have hBne : B ≠ [] := hne B (List.mem_cons_self _ _)
      have hBxmem : Bx ∈ B :: rest := hperm.subset (List.mem_cons_self _ _)
      have hBxne : Bx ≠ [] := hne Bx hBxmem
      obtain ⟨h, tb, hB⟩ := List.exists_cons_of_ne_nil hBne
      obtain ⟨hx, tbx, hBx⟩ := List.exists_cons_of_ne_nil hBxne
      simp only [List.flatten_cons] at hj hnd
      have hnodup := List.nodup_append.1 hnd
      have hBxB : Bx = B := by
        rcases List.mem_cons.1 hBxmem with heq | hmem
        · exact heq
        · exfalso
          have hhx : hx = h := by
            rw [hB, hBx, List.cons_append, List.cons_append, List.cons.injEq] at hj
            exact hj.1
          have hmemB : h ∈ B := by rw [hB]; exact List.mem_cons_self _ _
          have hmemBx : h ∈ Bx := by rw [hBx, ← hhx]; exact List.mem_cons_self _ _
          have hmemJoin : h ∈ rest.flatten := List.mem_flatten.2 ⟨Bx, hmem, hmemBx⟩
          exact hnodup.2.2 hmemB hmemJoin
      subst hBxB
      have htail : rest₂.flatten = rest.flatten :=
        (List.append_inj hj rfl).2
      have hrest : rest₂ = rest :=
        ih rest₂ (hperm.cons_inv) (fun b hb => hne b (List.mem_cons_of_mem _ hb))
          hnodup.2.1 htail
      rw [hrest]

/-- Counterexample to C5 as stated: moving the empty transfers component
to the front is a reordering of the components that yields a different
component sequence but identical name bytes. -/
theorem sandwich_name_reorder_counterexample :
    components_bytes [[], [1], [2], [3]] = components_bytes [[1], [2], [3], []] ∧
    List.Perm [[], [1], [2], [3]] [[1], [2], [3], ([] : List Nat)] ∧
    decide (([[], [1], [2], [3]] : List (List Nat)) = [[1], [2], [3], []]) = false := by
  refine ⟨by decide, by decide, by decide⟩

/-- C5 (amended): the name bytes are exactly the concatenation of the
little-endian id bytes of frontrun, backrun, victim and transfer events in
that order (so equal candidates give equal bytes and hence equal v5
UUIDs); and under the conditions the counterexample forces — all four
components non-empty and all ids distinct — any reordering that changes
the component sequence changes the name bytes. -/
theorem sandwich_name_deterministic_order :
    (∀ c : SandwichCandidate,
      sandwich_name_bytes c = components_bytes
        [c.frontrun.map (fun s => s.id), c.backrun.map (fun s => s.id),
         c.victim.map (fun s => s.id), c.transfers.map (fun t => t.id)]) ∧
    (∀ l₁ l₂ : List (List Nat), l₂.Perm l₁ → (∀ b ∈ l₁, b ≠ []) →
      (∀ x ∈ l₁.flatten, x < 2 ^ 64) → l₁.flatten.Nodup →
      components_bytes l₂ = components_bytes l₁ → l₂ = l₁) := by
  constructor
  · intro c
    simp [sandwich_name_bytes, components_bytes, bytes_of_ids]
  · intro l₁ l₂ hperm hne hbound hnd hbytes
    rw [components_bytes_eq_flatten, components_bytes_eq_flatten] at hbytes
    have hbound₂ : ∀ x ∈ l₂.flatten, x < 2 ^ 64 := by
      intro x hx
      obtain ⟨b, hb, hxb⟩ := List.mem_flatten.1 hx
      exact hbound x (List.mem_flatten.2 ⟨b, hperm.subset hb, hxb⟩)
    have hjoin : l₂.flatten = l₁.flatten :=
      bytes_of_ids_inj _ _ hbound₂ hbound hbytes
    exact flatten_perm_eq l₁ l₂ hperm hne hnd hjoin

/-- Witness for C5: both clauses at concrete values. -/
theorem sandwich_name_deterministic_order_witness :
    sandwich_name_bytes candW = components_bytes [[10], [12], [11], []] ∧
    ([[1], [2], [3]] : List (List Nat)) = [[1], [2], [3]] := by
  constructor
  · exact ((sandwich_name_deterministic_order.1 candW).trans (by decide))
  · exact sandwich_name_deterministic_order.2 [[1], [2], [3]] [[1], [2], [3]]
      (by decide) (by decide) (by decide) (by decide) (by decide)

/-! ## C7: the transaction decoder (`decompile_tx`, utils.rs)

Pubkeys are strings; `pubkey_from_slice(&lut.account_key[0..32])` is the
lookup's key directly.  The RPC `get_multiple_accounts` response is a
total function from a key to the deserialized address list (`none` when
the response contains no account for that key); a transport error or a
deserialization failure panics in the code (`expect`) and is outside the
claim.  `Except.error` models a panic; `Except.ok none` models the
transaction being skipped. -/

structure AccountMeta where
  pubkey : String
  is_signer : Bool
  is_writable : Bool
deriving DecidableEq, Repr

structure Instruction where
  program_id : String
  accounts : List AccountMeta
  data : List Nat
deriving DecidableEq, Repr

structure MessageHeader where
  num_required_signatures : Nat
  num_readonly_signed_accounts : Nat
  num_readonly_unsigned_accounts : Nat
deriving DecidableEq, Repr

structure CompiledInstruction where
  program_id_index : Nat
  accounts : List Nat
  data : List Nat
deriving DecidableEq, Repr

structure MessageAddressTableLookup where
  account_key : String
  writable_indexes : List Nat
  readonly_indexes : List Nat
deriving DecidableEq, Repr

structure TxMessage where
  header : Option MessageHeader
  account_keys : List String
  instructions : List CompiledInstruction
  address_table_lookups : List MessageAddressTableLookup
deriving DecidableEq, Repr

structure TxMeta where
  err : Option String
deriving DecidableEq, Repr

structure RawTransaction where
  message : Option TxMessage
deriving DecidableEq, Repr

structure RawTxInfo where
  transaction : Option RawTransaction
  meta : Option TxMeta
deriving DecidableEq, Repr

/-- `lut.addresses[*index as usize]` over an index list; an out-of-range
index is a panic. -/
def resolve_indexes (addrs : List String) (idxs : List Nat) :
    Except String (List String) :=
  idxs.mapM (fun i =>
    match addrs.get? i with
    | some a => Except.ok a
    | none => Except.error "index out of bounds")

/-- Rust `resolve_lut_lookups`: for each lookup, find its table in the
cache (`expect("lut not found")` is the panic branch) and resolve the
writable then readonly indexes; results concatenate in lookup order. -/
def resolve_lut_lookups (lut_cache : List (String × List String)) :
    List MessageAddressTableLookup → Except String (List String × List String)
  | [] => .ok ([], [])
  | lookup :: rest =>
    match lut_cache.lookup lookup.account_key with
    | none => .error "lut not found"
    | some lut =>
      match resolve_indexes lut lookup.writable_indexes with
      | .error e => .error e
      | .ok w =>
      match resolve_indexes lut lookup.readonly_indexes with
      | .error e => .error e
      | .ok r =>
      match resolve_lut_lookups lut_cache rest with
      | .error e => .error e
      | .ok (ws, rs) => .ok (w ++ ws, r ++ rs)

/-- The cache after the batched fetch of uncached tables: a key whose RPC
response holds an account is inserted; a key with no account is not. -/
def fetch_luts (rpc : String → Option (List String))
    (lut_cache : List (String × List String)) (uncached : List String) :
    List (String × List String) :=
  uncached.foldl (fun c k =>
    match rpc k with
    | some addrs => (k, addrs) :: c
    | none => c) lut_cache

/-- The cache `decompile_tx` resolves against: the incoming cache extended
by the fetched uncached tables of the message. -/
def post_fetch_cache (rpc : String → Option (List String))
    (lut_cache : List (String × List String)) (msg : TxMessage) :
    List (String × List String) :=
  fetch_luts rpc lut_cache
    ((msg.address_table_lookups.map (fun l => l.account_key)).filter
      (fun k => (lut_cache.lookup k).isNone))

/-- Signer/writable flags per Solana's canonical rules; `usize` arithmetic
is carried out in `ℤ` (in the taken branches the Rust subtractions only
underflow for inconsistent headers, a debug panic). -/
def compiled_account_meta (account_keys : List String) (header : MessageHeader)
    (num_static_keys num_writable_lut_keys : Nat) (i index : Nat) :
    Except String AccountMeta :=
  match account_keys.get? index with
  | none => .error "index out of bounds"
  | some pk =>
    .ok { pubkey := pk,
          is_signer := decide (i < header.num_required_signatures),
          is_writable :=
            if i ≥ num_static_keys then
              decide ((i : Int) - num_static_keys < (num_writable_lut_keys : Int))
            else if i ≥ header.num_required_signatures then
              decide ((i : Int) - header.num_required_signatures <
                (num_static_keys : Int) - header.num_required_signatures -
                  header.num_readonly_unsigned_accounts)
            else
              decide ((i : Int) < (header.num_required_signatures : Int) -
                header.num_readonly_signed_accounts) }

/-- Repackage one compiled instruction into a legacy `Instruction`. -/
def decompile_ix (account_keys : List String) (header : MessageHeader)
    (num_static_keys num_writable_lut_keys : Nat) (cix : CompiledInstruction) :
    Except String Instruction :=
  match account_keys.get? cix.program_id_index with
  | none => .error "index out of bounds"
  | some pid =>
    match cix.accounts.enum.mapM (fun p =>
        compiled_account_meta account_keys header num_static_keys
          num_writable_lut_keys p.1 p.2) with
    | .error e => .error e
    | .ok metas => .ok { program_id := pid, accounts := metas, data := cix.data }

/-- Rust `decompile_tx`: `Ok none` is the per-transaction skip (`None` in
Rust), `Except.error` is a panic. -/
def decompile_tx (rpc : String → Option (List String))
    (lut_cache : List (String × List String)) (raw_tx : RawTxInfo) :
    Except String (Option (List Instruction × List String)) :=
  match raw_tx.transaction with
  | none => .ok none
  | some tx =>
  match raw_tx.meta with
  | none => .ok none
  | some meta =>
  if meta.err.isSome then .ok none
  else
  match tx.message with
  | none => .ok none
  | some msg =>
  match msg.header with
  | none => .ok none
  | some header =>
  match resolve_lut_lookups (post_fetch_cache rpc lut_cache msg)
      msg.address_table_lookups with
  | .error e => .error e
  | .ok (writable, readonly) =>
    (msg.instructions.mapM
        (decompile_ix (msg.account_keys ++ writable ++ readonly) header
          msg.account_keys.length writable.length)).map
      (fun ixs => some (ixs, msg.account_keys ++ writable ++ readonly))

/-- The only ways `decompile_tx` returns `Ok none`. -/
def early_exit (raw_tx : RawTxInfo) : Prop :=
  raw_tx.transaction = none ∨ raw_tx.meta = none ∨
  (∃ m, raw_tx.meta = some m ∧ m.err.isSome = true) ∨
  (∃ t, raw_tx.transaction = some t ∧ t.message = none) ∨
  (∃ t msg, raw_tx.transaction = some t ∧ t.message = some msg ∧ msg.header = none)

theorem except_map_some_ne_ok_none {ε α β γ : Type} (f : α → β × γ)
    (e : Except ε α) (h : e.map (fun a => some (f a)) = Except.ok none) : False := by
  cases e <;> simp [Except.map] at h

theorem resolve_lut_lookups_miss (lut_cache : List (String × List String)) :
    ∀ (lookups : List MessageAddressTableLookup) (k : String),
      k ∈ lookups.map (fun l => l.account_key) → lut_cache.lookup k = none →
      ∃ e, resolve_lut_lookups lut_cache lookups = .error e := by
  intro lookups
  induction lookups with
  | nil => intro k hk _; cases hk
  | cons l rest ih =>
    intro k hk hmiss
    rw [List.map_cons, List.mem_cons] at hk
    rw [resolve_lut_lookups]
    split
    · exact ⟨"lut not found", rfl⟩
    · rename_i lut hfound
      have hk' : k ∈ rest.map (fun l => l.account_key) := by
        rcases hk with hk | hk
        · rw [hk] at hmiss
          rw [hmiss] at hfound
          cases hfound
        · exact hk
      split
      · rename_i e hw
        exact ⟨e, rfl⟩
      · split
        · rename_i e hr
          exact ⟨e, rfl⟩
        · obtain ⟨e, he⟩ := ih k hk' hmiss
          rw [he]
          exact ⟨e, rfl⟩

/-- C7 (amended): a missing LUT account is not a per-transaction skip but
a panic.  `decompile_tx` returns the skip value `Ok none` only for the
early exits (absent transaction/meta/message/header or an errored
transaction); when the structure is present and some referenced table is
absent from the post-fetch cache — in particular when the RPC response
has no account for an uncached table — the result is `Except.error`
(Rust: the `expect("lut not found")` panic). -/
theorem decompile_tx_lut_miss_panics (rpc : String → Option (List String))
    (lut_cache : List (String × List String)) (raw_tx : RawTxInfo) :
    (decompile_tx rpc lut_cache raw_tx = .ok none → early_exit raw_tx) ∧
    (∀ tx meta msg header,
      raw_tx.transaction = some tx → raw_tx.meta = some meta → meta.err = none →
      tx.message = some msg → msg.header = some header →
      ∀ k ∈ msg.address_table_lookups.map (fun l => l.account_key),
        (post_fetch_cache rpc lut_cache msg).lookup k = none →
        ∃ e, decompile_tx rpc lut_cache raw_tx = .error e) := by
  constructor
  · intro h
    unfold decompile_tx at h
    unfold early_exit
    repeat' split at h
    all_goals try exact (except_map_some_ne_ok_none _ _ h).elim
    all_goals simp_all
  · intro tx meta msg header htx hmeta herr hmsg hheader k hk hmiss
    obtain ⟨e, he⟩ := resolve_lut_lookups_miss (post_fetch_cache rpc lut_cache msg)
      msg.address_table_lookups k hk hmiss
    refine ⟨e, ?_⟩
    unfold decompile_tx
    simp only [htx, hmeta, hmsg, hheader, herr, Option.isSome_none,
      Bool.false_eq_true, if_false, he]

/-- The concrete transaction of the counterexample: well-formed, not
errored, one lookup whose table the RPC cannot find. -/
def rawLutTx : RawTxInfo :=
  { transaction := some { message := some {
      header := some { num_required_signatures := 1,
                       num_readonly_signed_accounts := 0,
                       num_readonly_unsigned_accounts := 0 },
      account_keys := ["payer"],
      instructions := [],
      address_table_lookups := [{ account_key := "L",
                                  writable_indexes := [0],
                                  readonly_indexes := [] }] } },
    meta := some { err := none } }

/-- Counterexample to C7 as stated: with an empty cache and an RPC that
has no account for table `L`, `decompile_tx` does not skip the transaction
(`Ok none`); it panics with `lut not found`. -/
theorem decompile_tx_lut_miss_counterexample :
    decompile_tx (fun _ => none) [] rawLutTx = .error "lut not found" := by
  decide

/-- Witness for C7: both clauses at concrete transactions. -/
theorem decompile_tx_lut_miss_panics_witness :
    early_exit { transaction := none, meta := none } ∧
    ∃ e, decompile_tx (fun _ => none) [] rawLutTx = .error e := by
  constructor
  · exact (decompile_tx_lut_miss_panics (fun _ => none) []
      { transaction := none, meta := none }).1 (by decide)
  · exact (decompile_tx_lut_miss_panics (fun _ => none) [] rawLutTx).2
      { message := some {
          header := some { num_required_signatures := 1,
                           num_readonly_signed_accounts := 0,
                           num_readonly_unsigned_accounts := 0 },
          account_keys := ["payer"],
          instructions := [],
          address_table_lookups := [{ account_key := "L",
                                      writable_indexes := [0],
                                      readonly_indexes := [] }] } }
      { err := none }
      { header := some { num_required_signatures := 1,
                         num_readonly_signed_accounts := 0,
                         num_readonly_unsigned_accounts := 0 },
        account_keys := ["payer"],
        instructions := [],
        address_table_lookups := [{ account_key := "L",
                                    writable_indexes := [0],
                                    readonly_indexes := [] }] }
      { num_required_signatures := 1, num_readonly_signed_accounts := 0,
        num_readonly_unsigned_accounts := 0 }
      rfl rfl rfl rfl rfl "L" (by decide) (by decide)

/-! ## C8: the SPL-token transfer finder (events/transfers/token.rs)

`mint_of` lives in `events/swaps/utils.rs`, which is not part of the
snapshot (only its callers are); it only decides which mint string a
transfer carries, so it is passed in as a function parameter already
closed over the account keys and token balances.  Panics
(`data[0]` on empty data, `data[1..9]` on short data, and the unguarded
`accounts[auth_index]`) are `Except.error`. -/

structure InnerInstruction where
  program_id_index : Nat
  accounts : List Nat
  data : List Nat
deriving DecidableEq, Repr

def TOKEN_PROGRAM_ID : String := "TokenkegQfeZyiNwAJbNbGKPFXCWuBvf9Ss623VQ5DA"

def TOKEN_2022_PROGRAM_ID : String := "TokenzQdBNbLqP5VEhdkAS6EPFLC1PHnBqCXEpPxuEb"

def LAMPORTS_PER_SOL : Nat := 1000000000

def is_token_program (program_id : String) : Bool :=
  decide (program_id = TOKEN_PROGRAM_ID) || decide (program_id = TOKEN_2022_PROGRAM_ID)

/-- Little-endian decode of a byte list (`u64::from_le_bytes`). -/
def le64_decode (bytes : List Nat) : Nat :=
  bytes.foldr (fun b acc => b + 256 * acc) 0

/-- Rust `amount_from_data`: reads `data[0]` (a panic on empty data) and,
for the transfer-like opcodes, the `u64` at `data[1..9]` (a panic when the
data is shorter than 9 bytes).  Opcode 9 (`CloseAccount`) uses the fixed
sentinel `1_000_000_000 * LAMPORTS_PER_SOL`. -/
def amount_from_data (data : List Nat) : Except String (Option Nat) :=
  match data.get? 0 with
  | none => .error "index out of bounds"
  | some 3 | some 7 | some 12 | some 14 =>
    if data.length < 9 then .error "slice index out of range"
    else .ok (some (le64_decode ((data.drop 1).take 8)))
  | some 9 => .ok (some (1000000000 * LAMPORTS_PER_SOL))
  | some _ => .ok none

/-- Rust `from_to_indexs`: `(from, to, authority)` account positions per
opcode. -/
def from_to_indexs (data : List Nat) : Option (Nat × Nat × Nat) :=
  match data.get? 0 with
  | some 3 => some (0, 1, 2)
  | some 7 => some (0, 1, 2)
  | some 9 => some (0, 1, 2)
  | some 12 => some (0, 2, 3)
  | some 14 => some (0, 1, 2)
  | _ => none

/-- The inner-instruction loop of
`TokenProgramTransferFinder::find_transfers` over the enumerated list;
out-of-range `program_id_index`, ATA indexes or authority key index, a
missing mint and a self-transfer skip the instruction; the unguarded
`inner_ix.accounts[auth_index]` (and short data) panic. -/
def token_inner_transfers (mint_of : String → Option String) (outer_pid : String)
    (account_keys : List String) :
    List (Nat × InnerInstruction) → Except String (List TransferV2)
  | [] => .ok []
  | (i, inner) :: rest =>
    if inner.program_id_index ≥ account_keys.length then
      token_inner_transfers mint_of outer_pid account_keys rest
    else if ¬(is_token_program (account_keys.getD inner.program_id_index "")) then
      token_inner_transfers mint_of outer_pid account_keys rest
    else
      match amount_from_data inner.data with
      | .error e => .error e
      | .ok none => token_inner_transfers mint_of outer_pid account_keys rest
      | .ok (some amount) =>
        match from_to_indexs inner.data with
        | none => token_inner_transfers mint_of outer_pid account_keys rest
        | some (from_index, to_index, auth_index) =>
          if from_index < inner.accounts.length ∧ to_index < inner.accounts.length then
            if inner.accounts.getD from_index 0 ≥ account_keys.length ∨
                inner.accounts.getD to_index 0 ≥ account_keys.length then
              token_inner_transfers mint_of outer_pid account_keys rest
            else if inner.accounts.getD from_index 0 = inner.accounts.getD to_index 0 then
              token_inner_transfers mint_of outer_pid account_keys rest
            else
              match inner.accounts.get? auth_index with
              | none => .error "index out of bounds"
              | some auth =>
                if auth ≥ account_keys.length then
                  token_inner_transfers mint_of outer_pid account_keys rest
                else
                  match mint_of (account_keys.getD (inner.accounts.getD from_index 0) "") <|>
                      mint_of (account_keys.getD (inner.accounts.getD to_index 0) "") with
                  | none => token_inner_transfers mint_of outer_pid account_keys rest
                  | some mint =>
                    match token_inner_transfers mint_of outer_pid account_keys rest with
                    | .error e => .error e
                    | .ok ts =>
                      .ok (TransferV2.new (some outer_pid)
                        (account_keys.getD inner.program_id_index "")
                        (account_keys.getD auth "") mint amount
                        (account_keys.getD (inner.accounts.getD from_index 0) "")
                        (account_keys.getD (inner.accounts.getD to_index 0) "")
                        0 0 0 (some i) 0 :: ts)
          else
            token_inner_transfers mint_of outer_pid account_keys rest

instance : Inhabited AccountMeta :=
  ⟨{ pubkey := "", is_signer := false, is_writable := false }⟩

/-- Rust `TokenProgramTransferFinder::find_transfers`: top-level
instruction first (emitting at most one transfer and short-circuiting),
then the inner-instruction loop. -/
def token_find_transfers (mint_of : String → Option String) (ix : Instruction)
    (inner_ixs : List InnerInstruction) (account_keys : List String) :
    Except String (List TransferV2) :=
  if is_token_program ix.program_id then
    match amount_from_data ix.data with
    | .error e => .error e
    | .ok none => token_inner_transfers mint_of ix.program_id account_keys inner_ixs.enum
    | .ok (some amount) =>
      match from_to_indexs ix.data with
      | none => token_inner_transfers mint_of ix.program_id account_keys inner_ixs.enum
      | some (from_index, to_index, auth_index) =>
        if from_index < ix.accounts.length ∧ to_index < ix.accounts.length then
          if (ix.accounts.getD from_index default).pubkey =
              (ix.accounts.getD to_index default).pubkey then
            .ok []
          else
            match ix.accounts.get? auth_index with
            | none => .error "index out of bounds"
            | some auth =>
              match mint_of (ix.accounts.getD from_index default).pubkey <|>
                  mint_of (ix.accounts.getD to_index default).pubkey with
              | some mint =>
                .ok [TransferV2.new none ix.program_id auth.pubkey mint amount
                  (ix.accounts.getD from_index default).pubkey
                  (ix.accounts.getD to_index default).pubkey 0 0 0 none 0]
              | none => token_inner_transfers mint_of ix.program_id account_keys
                  inner_ixs.enum
        else
          token_inner_transfers mint_of ix.program_id account_keys inner_ixs.enum
  else
    token_inner_transfers mint_of ix.program_id account_keys inner_ixs.enum

/-- The top-level token Transfer instruction with the authority account
missing: `from`/`to` pass the bounds check, `accounts[2]` does not exist. -/
def ixShortAccounts : Instruction :=
  { program_id := TOKEN_PROGRAM_ID,
    accounts := [{ pubkey := "a", is_signer := false, is_writable := false },
                 { pubkey := "b", is_signer := false, is_writable := false }],
    data := [3, 1, 0, 0, 0, 0, 0, 0, 0] }

/-- A non-token outer instruction wrapping the inner transfer below. -/
def ixWrapper : Instruction := { program_id := "P", accounts := [], data := [] }

/-- An inner Transfer whose `from` and `to` indexes differ but resolve to
the same pubkey because the account-key vector repeats `X`. -/
def innerDup : InnerInstruction :=
  { program_id_index := 0, accounts := [1, 2, 3], data := [3, 5, 0, 0, 0, 0, 0, 0, 0] }

def keysDup : List String := [TOKEN_PROGRAM_ID, "X", "X", "A"]

def mintOfDup (s : String) : Option String := if s = "X" then some "M" else none

/-- The transfer `innerDup` produces: equal source and destination
token-account strings. -/
def tDup : TransferV2 :=
  TransferV2.new (some "P") TOKEN_PROGRAM_ID "A" "M" 5 "X" "X" 0 0 0 (some 0) 0

/-- C8 evaluated at the failing inputs: a top-level Transfer with only two
accounts panics on the unguarded `accounts[auth_index]` instead of
emitting nothing, and an inner Transfer between two distinct indexes of
one repeated account key emits a transfer whose source and destination
token accounts are equal (the self-transfer check compares indexes, not
keys). -/
theorem token_transfers_auth_index_bug :
    token_find_transfers (fun _ => none) ixShortAccounts [] [] =
      .error "index out of bounds" ∧
    (token_find_transfers mintOfDup ixWrapper [innerDup] keysDup = .ok [tDup] ∧
      tDup.input_ata = tDup.output_ata) := by
  refine ⟨by decide, by decide, by decide⟩

/-! ## C9: the Sugar swap fee (events/swaps/sugar.rs)

The callers (`find_swaps`) only invoke `swap_from_pdf_trade_event` on a
137-byte self-CPI log event; byte reads are modelled with `drop`/`take`
and a defaulted `data[64]`.  `u64` multiplication wraps
(release-profile semantics), hence the explicit `% 2^64`.  Base58
rendering of a 32-byte key is abstracted to `toString` of the bytes
(injective, and no theorem below depends on its value). -/

def SUGAR_PUBKEY : String := "deus4Bvftd5QKcEkE5muQaWGWDoma8GrySvPFrBPjhS"

def WSOL_MINT : String := "So11111111111111111111111111111111111111112"

/-- Rendering of `pubkey_from_slice(bytes).to_string()`. -/
def pubkey_str (bytes : List Nat) : String := toString bytes

/-- `sol_amount`: `u64` at `data[48..56]`. -/
def sugar_sol_amount (data : List Nat) : Nat := le64_decode ((data.drop 48).take 8)

/-- `token_amount`: `u64` at `data[56..64]`. -/
def sugar_token_amount (data : List Nat) : Nat := le64_decode ((data.drop 56).take 8)

/-- `is_buy = data[64] != 0`. -/
def sugar_is_buy (data : List Nat) : Bool := data.getD 64 0 ≠ 0

/-- `fee = sol_amount * 9 / 991` on buys (with the wrap of the `u64`
product), `0` on sells. -/
def sugar_fee (data : List Nat) : Nat :=
  if sugar_is_buy data then sugar_sol_amount data * 9 % 2 ^ 64 / 991 else 0

/-- Rust `SugarSwapFinder::swap_from_pdf_trade_event`. -/
def swap_from_pdf_trade_event (outer_program : Option String)
    (amm input_ata output_ata : String) (data : List Nat)
    (inner_ix_index : Option Nat) : SwapV2 :=
  { outer_program,
    program := SUGAR_PUBKEY,
    authority := pubkey_str ((data.drop 65).take 32),
    amm,
    input_mint := if sugar_is_buy data then WSOL_MINT
      else pubkey_str ((data.drop 16).take 32),
    output_mint := if sugar_is_buy data then pubkey_str ((data.drop 16).take 32)
      else WSOL_MINT,
    input_amount := if sugar_is_buy data then
        (sugar_sol_amount data + sugar_fee data) % 2 ^ 64
      else sugar_token_amount data,
    output_amount := if sugar_is_buy data then sugar_token_amount data
      else sugar_sol_amount data - sugar_fee data,
    input_ata, output_ata,
    input_inner_ix_index := none, output_inner_ix_index := none,
    slot := 0, inclusion_order := 0, ix_index := 0, inner_ix_index, id := 0 }

theorem le64_decode_lt (l : List Nat) (hb : ∀ b ∈ l, b < 256) (hl : l.length ≤ 8) :
    le64_decode l < 256 ^ l.length := by
  induction l with
  | nil => simp [le64_decode]
  | cons b t ih =>
    have hbt : b < 256 := hb b (List.mem_cons_self _ _)
    have ht := ih (fun x hx => hb x (List.mem_cons_of_mem _ hx))
      (le_trans (Nat.le_succ _) hl)
    simp only [le64_decode, List.foldr_cons] at *
    calc b + 256 * List.foldr (fun b acc => b + 256 * acc) 0 t
        < 256 + 256 * List.foldr (fun b acc => b + 256 * acc) 0 t := by omega
      _ ≤ 256 * 256 ^ t.length := by omega
      _ = 256 ^ (b :: t).length := by rw [List.length_cons]; ring

theorem sugar_sol_amount_lt (data : List Nat) (hb : ∀ b ∈ data, b < 256) :
    sugar_sol_amount data < 2 ^ 64 := by
  have hsub : ∀ b ∈ (data.drop 48).take 8, b < 256 := fun b hbm =>
    hb b (List.drop_subset _ _ (List.take_subset _ _ hbm))
  have hlen : ((data.drop 48).take 8).length ≤ 8 := by
    simp [List.length_take]
  have := le64_decode_lt _ hsub hlen
  calc sugar_sol_amount data < 256 ^ ((data.drop 48).take 8).length := this
    _ ≤ 256 ^ 8 := Nat.pow_le_pow_right (by omega) hlen
    _ = 2 ^ 64 := by norm_num

/-- C9: for every Sugar swap derived from the self-CPI log event (byte
values below 256, `u64` product not overflowing), the fee is
`sol_amount * 9 / 991` on buys and `0` on sells, and the recorded amounts
are `input = sol_amount + fee`, `output = token_amount` on buys and
`input = token_amount`, `output = sol_amount - fee` on sells. -/
theorem sugar_fee_and_amounts (outer_program : Option String)
    (amm input_ata output_ata : String) (data : List Nat) (inner_ix_index : Option Nat)
    (hof : sugar_sol_amount data * 9 < 2 ^ 64) :
    (sugar_fee data =
      if sugar_is_buy data then sugar_sol_amount data * 9 / 991 else 0) ∧
    (sugar_is_buy data = true →
      (swap_from_pdf_trade_event outer_program amm input_ata output_ata data
          inner_ix_index).input_amount =
        sugar_sol_amount data + sugar_sol_amount data * 9 / 991 ∧
      (swap_from_pdf_trade_event outer_program amm input_ata output_ata data
          inner_ix_index).output_amount = sugar_token_amount data) ∧
    (sugar_is_buy data = false →
      (swap_from_pdf_trade_event outer_program amm input_ata output_ata data
          inner_ix_index).input_amount = sugar_token_amount data ∧
      (swap_from_pdf_trade_event outer_program amm input_ata output_ata data
          inner_ix_index).output_amount = sugar_sol_amount data - sugar_fee data) := by
  have hwrap : sugar_sol_amount data * 9 % 2 ^ 64 = sugar_sol_amount data * 9 :=
    Nat.mod_eq_of_lt hof
  refine ⟨?_, ?_, ?_⟩
  · unfold sugar_fee
    rw [hwrap]
  · intro hbuy
    unfold swap_from_pdf_trade_event sugar_fee
    rw [hwrap]
    simp only [hbuy, if_true]
    constructor
    · have hsum : sugar_sol_amount data + sugar_sol_amount data * 9 / 991 < 2 ^ 64 := by
        have h991 : sugar_sol_amount data * 9 / 991 ≤ sugar_sol_amount data * 9 :=
          Nat.div_le_self _ _
        omega
      exact Nat.mod_eq_of_lt hsum
    · trivial
  · intro hsell
    unfold swap_from_pdf_trade_event
    simp only [hsell, Bool.false_eq_true, if_false]
    refine ⟨?_, ?_⟩ <;> first | trivial | rfl

/-- The concrete buy event of the witness: `sol_amount = 10000`,
`token_amount = 5`, `is_buy = 1`. -/
def sugarDataW : List Nat :=
  List.replicate 48 0 ++ [16, 39, 0, 0, 0, 0, 0, 0] ++ [5, 0, 0, 0, 0, 0, 0, 0] ++
  [1] ++ List.replicate 72 0

set_option maxRecDepth 4000 in
/-- Witness for C9: the fee and buy clauses at the concrete event
(`fee = 10000 * 9 / 991 = 90`, `input = 10090`, `output = 5`). -/
theorem sugar_fee_and_amounts_witness :
    sugar_fee sugarDataW = (if sugar_is_buy sugarDataW then
      sugar_sol_amount sugarDataW * 9 / 991 else 0) ∧
    (swap_from_pdf_trade_event none "amm" "ia" "oa" sugarDataW none).input_amount =
      sugar_sol_amount sugarDataW + sugar_sol_amount sugarDataW * 9 / 991 ∧
    (swap_from_pdf_trade_event none "amm" "ia" "oa" sugarDataW none).output_amount =
      sugar_token_amount sugarDataW := by
  refine ⟨(sugar_fee_and_amounts none "amm" "ia" "oa" sugarDataW none
      (by decide)).1, ?_⟩
  exact (sugar_fee_and_amounts none "amm" "ia" "oa" sugarDataW none
      (by decide)).2.1 (by decide)

/-! ## C10: the generic swap walker (`find_swaps_generic`,
events/swaps/swap_finder_ext.rs)

The per-finder trait methods (`ixs_to_skip`, `blacklist_ata_indexs`,
`amm_ix`, `user_ata_ix`, `pool_ata_ix` and the `_inner_ix` variants) are
the fields of `FinderParams`.  `token_transferred_inner` lives in
`events/swaps/utils.rs`, absent from the snapshot; it is a parameter
`ttx : InnerInstruction → Option TransferTuple`, already closed over the
account keys and meta.  `Pubkey::default()` is a distinguished key
string. -/

/-- `(from, to, authority, mint, amount)`. -/
abbrev TransferTuple := String × String × String × String × Nat

/-- `Pubkey::default()` rendered (the all-zero key). -/
def pubkey_default : String := "11111111111111111111111111111111"

structure FinderParams where
  ixs_to_skip : Nat
  blacklist_ata_indexs : List Nat
  amm_ix : Instruction → String
  user_ata_ix : Instruction → String × String
  pool_ata_ix : Instruction → String × String
  amm_inner_ix : InnerInstruction → List String → String
  user_ata_inner_ix : InnerInstruction → List String → String × String
  pool_ata_inner_ix : InnerInstruction → List String → String × String

structure InnerInstructions where
  index : Nat
  instructions : List InnerInstruction
deriving DecidableEq, Repr

/-- The mutable leg variables of `find_swaps_generic` before a swap is
assembled. -/
structure LegState where
  input_amount : Nat := 0
  output_amount : Nat := 0
  input_mint : Option String := none
  output_mint : Option String := none
  input_index : Option Nat := none
  output_index : Option Nat := none
  authority : String := ""
deriving DecidableEq, Repr

/-- One transfer observation in the top-level loop: record an input leg
(`from == user input ATA`, pool output ATA matching or unspecified) or an
output leg, skipping blacklisted ATAs.  `idx` is the recorded inner-ix
index. -/
def leg_update (input_ata output_ata pool_input_ata pool_output_ata : String)
    (blacklist_atas : List String) (st : LegState) (idx : Nat)
    (tt : Option TransferTuple) : LegState :=
  match tt with
  | none => st
  | some (fromAta, toAta, auth, mint, amount) =>
    if fromAta ∈ blacklist_atas ∨ toAta ∈ blacklist_atas then st
    else if fromAta = input_ata ∧
        (toAta = pool_output_ata ∨ pool_output_ata = pubkey_default) then
      { st with input_mint := some mint, input_amount := amount,
                input_index := some idx, authority := auth }
    else if toAta = output_ata ∧
        (fromAta = pool_input_ata ∨ pool_input_ata = pubkey_default) then
      { st with output_mint := some mint, output_amount := amount,
                output_index := some idx }
    else st

/-- The single top-level swap `find_swaps_generic` emits (defaults for
whatever leg was not found). -/
def top_swap (F : FinderParams) (ix : Instruction) (st : LegState) : SwapV2 :=
  { outer_program := none,
    program := ix.program_id,
    authority := st.authority,
    amm := F.amm_ix ix,
    input_mint := st.input_mint.getD "",
    output_mint := st.output_mint.getD "",
    input_amount := st.input_amount,
    output_amount := st.output_amount,
    input_ata := (F.user_ata_ix ix).1,
    output_ata := (F.user_ata_ix ix).2,
    input_inner_ix_index := st.input_index,
    output_inner_ix_index := st.output_index,
    slot := 0, inclusion_order := 0, ix_index := 0, inner_ix_index := none, id := 0 }

/-- The swap the CPI path assembles for the matched inner call at
enumerated position `i`. -/
def cpi_swap (F : FinderParams) (ttx_pid outer_pid : String) (inner : InnerInstruction)
    (account_keys : List String) (st : LegState) (i : Nat) : SwapV2 :=
  { outer_program := some outer_pid,
    program := ttx_pid,
    authority := st.authority,
    amm := F.amm_inner_ix inner account_keys,
    input_mint := st.input_mint.getD "",
    output_mint := st.output_mint.getD "",
    input_amount := st.input_amount,
    output_amount := st.output_amount,
    input_ata := (F.user_ata_inner_ix inner account_keys).1,
    output_ata := (F.user_ata_inner_ix inner account_keys).2,
    input_inner_ix_index := st.input_index,
    output_inner_ix_index := st.output_index,
    slot := 0, inclusion_order := 0, ix_index := 0, inner_ix_index := some i, id := 0 }

/-- `blacklist_ata_indexes.filter_map(|i| next.accounts.get(i)
.map(|acc| account_keys[*acc]))`: a missing account position is filtered
out, an out-of-range account key index panics. -/
def blacklist_resolve (blacklist : List Nat) (next : InnerInstruction)
    (account_keys : List String) : Except String (List String) :=
  match blacklist with
  | [] => .ok []
  | bi :: rest =>
    match next.accounts.get? bi with
    | none => blacklist_resolve rest next account_keys
    | some acc =>
      match account_keys.get? acc with
      | none => .error "index out of bounds"
      | some pk => (blacklist_resolve rest next account_keys).map (fun l => pk :: l)

/-- The `j` scan of the CPI path: look for the two legs after the matched
inner AMM call; `inl` is the early return with both legs (and the new
`next_logical_ix`), `inr` carries the final leg state for the fallback
push. -/
def cpi_scan (F : FinderParams) (ttx : InnerInstruction → Option TransferTuple)
    (account_keys : List String) (instructions : List InnerInstruction)
    (input_ata output_ata pool_input_ata pool_output_ata : String) :
    List Nat → LegState → Except String (Sum (LegState × Nat) LegState)
  | [], st => .ok (.inr st)
  | j :: rest, st =>
    let next := instructions.getD j { program_id_index := 0, accounts := [], data := [] }
    if next.program_id_index ≥ account_keys.length then
      cpi_scan F ttx account_keys instructions input_ata output_ata pool_input_ata
        pool_output_ata rest st
    else
      match ttx next with
      | some tt =>
        match blacklist_resolve F.blacklist_ata_indexs next account_keys with
        | .error e => .error e
        | .ok blk =>
          if tt.1 ∈ blk ∨ tt.2.1 ∈ blk then
            cpi_scan F ttx account_keys instructions input_ata output_ata pool_input_ata
              pool_output_ata rest st
          else
            let st' := leg_update input_ata output_ata pool_input_ata pool_output_ata
              [] st j (some tt)
            if st'.input_mint.isSome ∧ st'.output_mint.isSome then
              .ok (.inl (st', j + 1))
            else
              cpi_scan F ttx account_keys instructions input_ata output_ata pool_input_ata
                pool_output_ata rest st'
      | none =>
        if st.input_mint.isSome ∧ st.output_mint.isSome then
          .ok (.inl (st, j + 1))
        else
          cpi_scan F ttx account_keys instructions input_ata output_ata pool_input_ata
            pool_output_ata rest st

/-- The CPI enumeration over `(i, inner)` with the `next_logical_ix`
skip. -/
def cpi_loop (F : FinderParams) (ttx : InnerInstruction → Option TransferTuple)
    (account_keys : List String) (instructions : List InnerInstruction)
    (outer_pid program_id : String) (discriminant : List Nat)
    (discriminant_offset data_length : Nat) :
    List (Nat × InnerInstruction) → Nat → Except String (List SwapV2)
  | [], _ => .ok []
  | (i, inner) :: rest, next_logical_ix =>
    if i < next_logical_ix then
      cpi_loop F ttx account_keys instructions outer_pid program_id discriminant
        discriminant_offset data_length rest next_logical_ix
    else if inner.program_id_index ≥ account_keys.length then
      cpi_loop F ttx account_keys instructions outer_pid program_id discriminant
        discriminant_offset data_length rest next_logical_ix
    else if ¬(account_keys.getD inner.program_id_index "" = program_id) then
      cpi_loop F ttx account_keys instructions outer_pid program_id discriminant
        discriminant_offset data_length rest next_logical_ix
    else if inner.data.length < data_length then
      cpi_loop F ttx account_keys instructions outer_pid program_id discriminant
        discriminant_offset data_length rest next_logical_ix
    else if discriminant_offset + discriminant.length > inner.data.length then
      .error "slice index out of range"
    else if ¬((inner.data.drop discriminant_offset).take discriminant.length =
        discriminant) then
      cpi_loop F ttx account_keys instructions outer_pid program_id discriminant
        discriminant_offset data_length rest next_logical_ix
    else
      match cpi_scan F ttx account_keys instructions
          (F.user_ata_inner_ix inner account_keys).1
          (F.user_ata_inner_ix inner account_keys).2
          (F.pool_ata_inner_ix inner account_keys).1
          (F.pool_ata_inner_ix inner account_keys).2
          (List.range' (i + F.ixs_to_skip)
            (instructions.length - (i + F.ixs_to_skip))) {} with
      | .error e => .error e
      | .ok (.inl (st, nli)) =>
        (cpi_loop F ttx account_keys instructions outer_pid program_id discriminant
          discriminant_offset data_length rest nli).map
          (fun l => cpi_swap F program_id outer_pid inner account_keys st i :: l)
      | .ok (.inr st) =>
        (cpi_loop F ttx account_keys instructions outer_pid program_id discriminant
          discriminant_offset data_length rest next_logical_ix).map
          (fun l => cpi_swap F program_id outer_pid inner account_keys st i :: l)

/-- Rust `SwapFinderExt::find_swaps_generic`. -/
def find_swaps_generic (F : FinderParams) (ttx : InnerInstruction → Option TransferTuple)
    (ix : Instruction) (inner_ixs : InnerInstructions) (account_keys : List String)
    (program_id : String) (discriminant : List Nat)
    (discriminant_offset data_length : Nat) : Except String (List SwapV2) :=
  if inner_ixs.instructions.length ≤ F.ixs_to_skip then .ok []
  else if ix.program_id = program_id then
    if data_length < discriminant_offset + discriminant.length ∨
        ix.data.length < data_length then .ok []
    else if ¬((ix.data.drop discriminant_offset).take discriminant.length =
        discriminant) then .ok []
    else
      .ok [top_swap F ix
        (((inner_ixs.instructions.drop F.ixs_to_skip).enum).foldl
          (fun st p =>
            leg_update (F.user_ata_ix ix).1 (F.user_ata_ix ix).2
              (F.pool_ata_ix ix).1 (F.pool_ata_ix ix).2
              (F.blacklist_ata_indexs.filterMap
                (fun bi => (ix.accounts.get? bi).map (fun a => a.pubkey)))
              st (p.1 + F.ixs_to_skip) (ttx p.2))
          {})]
  else
    cpi_loop F ttx account_keys inner_ixs.instructions ix.program_id program_id
      discriminant discriminant_offset data_length inner_ixs.instructions.enum 0

/-- A minimal finder parameter set (defaults of the `SwapFinder` trait:
no skipped instructions, no blacklist, unspecified pool ATAs). -/
def F0 : FinderParams :=
  { ixs_to_skip := 0, blacklist_ata_indexs := [],
    amm_ix := fun _ => "AMM",
    user_ata_ix := fun _ => ("UI", "UO"),
    pool_ata_ix := fun _ => (pubkey_default, pubkey_default),
    amm_inner_ix := fun _ _ => "AMM",
    user_ata_inner_ix := fun _ _ => ("UI", "UO"),
    pool_ata_inner_ix := fun _ _ => (pubkey_default, pubkey_default) }

/-- Counterexample to C10 as stated: a top-level instruction matching the
finder's program id, discriminant and data length, but with an empty
inner-instruction list, yields no swap at all — the
`instructions.len() <= ixs_to_skip` early return precedes the top-level
match. -/
theorem find_swaps_generic_counterexample :
    find_swaps_generic F0 (fun _ => none)
      { program_id := "P", accounts := [], data := [1] }
      { index := 0, instructions := [] } [] "P" [1] 0 1 = .ok [] := by
  decide

theorem foldl_id {α β : Type} (f : β → α → β) (l : List α)
    (h : ∀ (st : β) (p : α), p ∈ l → f st p = st) : ∀ st, l.foldl f st = st := by
  induction l with
  | nil => intro st; rfl
  | cons a t ih =>
    intro st
    rw [List.foldl_cons, h st a (List.mem_cons_self _ _)]
    exact ih (fun st p hp => h st p (List.mem_cons_of_mem _ hp)) st

/-- C10 (amended): when the top-level instruction matches the finder and
the inner-instruction list is longer than `ixs_to_skip`, exactly one swap
is returned — even with zero matching transfer legs, in which case it
carries empty-string mints and authority, zero amounts and `None` leg
indices; when the inner-instruction list is not longer than `ixs_to_skip`
the result is empty despite the match (the counterexample); and the CPI
path emits such a defaulted swap for a matched inner AMM call whose leg
scan completes without both legs. -/
theorem find_swaps_generic_amended :
    (∀ (F : FinderParams) (ttx : InnerInstruction → Option TransferTuple)
        (ix : Instruction) (inner_ixs : InnerInstructions)
        (account_keys : List String) (program_id : String) (disc : List Nat)
        (off dlen : Nat),
      F.ixs_to_skip < inner_ixs.instructions.length → ix.program_id = program_id →
      ¬(dlen < off + disc.length) → ¬(ix.data.length < dlen) →
      (ix.data.drop off).take disc.length = disc →
      (∃ s, find_swaps_generic F ttx ix inner_ixs account_keys program_id disc off
          dlen = .ok [s]) ∧
      ((∀ inner ∈ inner_ixs.instructions, ttx inner = none) →
        find_swaps_generic F ttx ix inner_ixs account_keys program_id disc off dlen =
          .ok [top_swap F ix {}] ∧
        (top_swap F ix {}).authority = "" ∧ (top_swap F ix {}).input_mint = "" ∧
        (top_swap F ix {}).output_mint = "" ∧ (top_swap F ix {}).input_amount = 0 ∧
        (top_swap F ix {}).output_amount = 0 ∧
        (top_swap F ix {}).input_inner_ix_index = none ∧
        (top_swap F ix {}).output_inner_ix_index = none)) ∧
    (∀ (F : FinderParams) (ttx : InnerInstruction → Option TransferTuple)
        (ix : Instruction) (inner0 : InnerInstruction) (account_keys : List String)
        (program_id : String) (disc : List Nat) (off dlen : Nat),
      F.ixs_to_skip = 0 → ¬(ix.program_id = program_id) →
      ¬(inner0.program_id_index ≥ account_keys.length) →
      account_keys.getD inner0.program_id_index "" = program_id →
      ¬(inner0.data.length < dlen) → ¬(off + disc.length > inner0.data.length) →
      (inner0.data.drop off).take disc.length = disc →
      ttx inner0 = none →
      find_swaps_generic F ttx ix { index := 0, instructions := [inner0] }
          account_keys program_id disc off dlen =
        .ok [cpi_swap F program_id ix.program_id inner0 account_keys {} 0] ∧
      (cpi_swap F program_id ix.program_id inner0 account_keys {} 0).inner_ix_index =
        some 0 ∧
      (cpi_swap F program_id ix.program_id inner0 account_keys {} 0).input_mint = "" ∧
      (cpi_swap F program_id ix.program_id inner0 account_keys {} 0).output_mint = "" ∧
      (cpi_swap F program_id ix.program_id inner0 account_keys {} 0).input_amount = 0 ∧
      (cpi_swap F program_id ix.program_id inner0 account_keys {} 0).output_amount =
        0) := by
  constructor
  · intro F ttx ix inner_ixs account_keys program_id disc off dlen hskip hpid hdl
      hlen hdisc
    have hif : ¬(inner_ixs.instructions.length ≤ F.ixs_to_skip) := Nat.not_le.mpr hskip
    have heq :
        find_swaps_generic F ttx ix inner_ixs account_keys program_id disc off dlen =
          .ok [top_swap F ix
            (((inner_ixs.instructions.drop F.ixs_to_skip).enum).foldl
              (fun st p =>
                leg_update (F.user_ata_ix ix).1 (F.user_ata_ix ix).2
                  (F.pool_ata_ix ix).1 (F.pool_ata_ix ix).2
                  (F.blacklist_ata_indexs.filterMap
                    (fun bi => (ix.accounts.get? bi).map (fun a => a.pubkey)))
                  st (p.1 + F.ixs_to_skip) (ttx p.2))
              {})] := by
      unfold find_swaps_generic
      rw [if_neg hif, if_pos hpid, if_neg (by tauto), if_neg (by rw [hdisc]; tauto)]
    constructor
    · exact ⟨_, heq⟩
    · intro hnone
      have hfold : ((inner_ixs.instructions.drop F.ixs_to_skip).enum).foldl
          (fun st p =>
            leg_update (F.user_ata_ix ix).1 (F.user_ata_ix ix).2
              (F.pool_ata_ix ix).1 (F.pool_ata_ix ix).2
              (F.blacklist_ata_indexs.filterMap
                (fun bi => (ix.accounts.get? bi).map (fun a => a.pubkey)))
              st (p.1 + F.ixs_to_skip) (ttx p.2))
          {} = ({} : LegState) := by
        apply foldl_id
        intro st p hp
        have hmem : p.2 ∈ inner_ixs.instructions.drop F.ixs_to_skip := by
          have := List.mem_map_of_mem Prod.snd hp
          rw [List.enum_map_snd] at this
          exact this
        rw [hnone p.2 (List.drop_subset _ _ hmem)]
        rfl
      refine ⟨?_, rfl, rfl, rfl, rfl, rfl, rfl, rfl⟩
      rw [heq, hfold]
  · intro F ttx ix inner0 account_keys program_id disc off dlen hskip hpidne hpi
      hpid hlen hslice hdisc httx
    refine ⟨?_, rfl, rfl, rfl, rfl, rfl⟩
    unfold find_swaps_generic
    rw [if_neg (by simp [hskip]), if_neg hpidne]
    show cpi_loop F ttx account_keys [inner0] ix.program_id program_id disc off dlen
      [(0, inner0)] 0 = _
    rw [cpi_loop]
    rw [if_neg (by omega), if_neg hpi, if_neg (by rw [hpid]; tauto), if_neg hlen,
      if_neg hslice, if_neg (by rw [hdisc]; tauto)]
    have hrange : List.range' (0 + F.ixs_to_skip)
        (([inner0] : List InnerInstruction).length - (0 + F.ixs_to_skip)) = [0] := by
      rw [hskip]
      rfl
    rw [hrange]
    rw [cpi_scan]
    simp only [List.getD_cons_zero, httx, ge_iff_le]
    rw [if_neg (by omega)]
    simp only [Option.isSome_none, Bool.false_eq_true, false_and, if_false,
      cpi_scan, cpi_loop, Except.map]

/-- A matching top-level instruction for the witness. -/
def ixTopW : Instruction := { program_id := "P", accounts := [], data := [1] }

/-- A non-matching outer instruction (CPI wrapper) for the witness. -/
def ixCpiW : Instruction := { program_id := "Q", accounts := [], data := [] }

/-- The inner instruction of the witness: program id index 0, matching
data. -/
def innerAW : InnerInstruction := { program_id_index := 0, accounts := [], data := [1] }

/-- Witness for C10: both clauses of the amended theorem at concrete
inputs (a matching top-level call with one transfer-free inner
instruction, and a matching CPI call whose scan finds no legs). -/
theorem find_swaps_generic_amended_witness :
    find_swaps_generic F0 (fun _ => none) ixTopW
        { index := 0, instructions := [innerAW] } [] "P" [1] 0 1 =
      .ok [top_swap F0 ixTopW {}] ∧
    find_swaps_generic F0 (fun _ => none) ixCpiW
        { index := 0, instructions := [innerAW] } ["P"] "P" [1] 0 1 =
      .ok [cpi_swap F0 "P" "Q" innerAW ["P"] {} 0] := by
  constructor
  · exact ((find_swaps_generic_amended.1 F0 (fun _ => none) ixTopW
      { index := 0, instructions := [innerAW] } [] "P" [1] 0 1
      (by decide) rfl (by decide) (by decide) rfl).2
      (fun inner _ => rfl)).1
  · exact (find_swaps_generic_amended.2 F0 (fun _ => none) ixCpiW innerAW ["P"]
      "P" [1] 0 1 rfl (by decide) (by decide) rfl (by decide) (by decide) rfl
      rfl).1
